import Mathlib

/-!
Shallow embedding of the slicing core of the `stl-slicer` repository
(`src/utils/StlSlicer.ts` and `src/utils/BVHSlicer.ts`).

Modelling conventions:

* JavaScript numbers are modelled by exact rationals `ℚ`.  All numeric
  branch conditions in the source are either pure rational arithmetic or
  comparisons of a Euclidean distance/norm against a rational threshold.
  Pure comparisons of single distances are embedded exactly by comparing
  squared distances against squared thresholds (`√s < e ↔ s < e²` for
  `0 ≤ e`).  Where the source *accumulates* distances (path perimeters) or
  passes a distance value around (the 2-D point metric used by
  `buildPaths`, and the bounding-box diagonal used for the tolerances),
  the Euclidean metric is abstracted as an explicit function parameter
  `d : Point2 → Point2 → ℚ`; theorems either hold for every `d` or take
  the properties of the metric they use as hypotheses.  Concrete
  evaluations instantiate `d` with the taxicab metric and use only
  configurations in which all points share one coordinate, where the
  taxicab and Euclidean metrics agree exactly (`taxiDist_euclid_on_row`).
* JavaScript `Set` iterates in insertion order; it is modelled by a
  duplicate-free `List` with append-if-new insertion.  `Map` is modelled
  by an association list with append insertion and first-match lookup.
* `Math.round` rounds half-up (`Math.round x = ⌊x + 1/2⌋`), `Math.ceil`
  is `⌈·⌉`, `Math.max` is `max`.
* `while` loops are embedded as fuel-indexed recursion; each loop in the
  source either has an explicit safety bound (the primary trace) or
  strictly consumes a finite resource per iteration (a fresh node or a
  fresh segment), and the fuel passed at each call site exceeds that
  resource, so fuel exhaustion is unreachable.
* The BVH `shapecast` of `BVHSlicer.sliceAtPlane` only prunes subtrees
  whose bounding box does not straddle the slice plane; a triangle in a
  pruned subtree has all three vertices strictly on one side of the
  plane, for which `intersectsTriangle` would collect no points.  The
  query is therefore embedded as a scan of all triangles; the visit
  order of the surviving triangles is modelled as mesh order.
-/

namespace StlSlicer

/-- Slicing axis (`type Axis = 'x' | 'y' | 'z'`). -/
inductive Axis : Type
  | x
  | y
  | z
deriving DecidableEq, Repr

/-- A 3-D point (`THREE.Vector3`), as a triple of exact coordinates. -/
abbrev Point3 : Type := ℚ × ℚ × ℚ

/-- A 2-D point (`THREE.Vector2`). -/
abbrev Point2 : Type := ℚ × ℚ

/-- The coordinate of a 3-D point along a slicing axis. -/
def coord3 (p : Point3) (ax : Axis) : ℚ :=
  match ax with
  | Axis.x => p.1
  | Axis.y => p.2.1
  | Axis.z => p.2.2

/-- A triangle of the mesh (`tri.a`, `tri.b`, `tri.c`). -/
abbrev Triangle : Type := Point3 × Point3 × Point3

/-- Squared Euclidean distance of two 3-D points.  The source compares
`p.distanceTo(q) < EDGE_EPS`; this is embedded exactly as
`dSq3 p q < edgeEps ^ 2`. -/
def dSq3 (p q : Point3) : ℚ :=
  (p.1 - q.1) ^ 2 + (p.2.1 - q.2.1) ^ 2 + (p.2.2 - q.2.2) ^ 2

/-- The fixed epsilon `EDGE_EPS = 1e-12` of `BVHSlicer.sliceAtPlane`. -/
def edgeEps : ℚ := 1 / 10 ^ 12

/-- Clamp to the unit interval (`Math.max(0, Math.min(1, t))`). -/
def clamp01 (t : ℚ) : ℚ := max 0 (min 1 t)

/-- Linear interpolation `THREE.Vector3.lerpVectors(a, b, t) = a + (b-a)*t`,
componentwise. -/
def lerp3 (a b : Point3) (t : ℚ) : Point3 :=
  (a.1 + (b.1 - a.1) * t, a.2.1 + (b.2.1 - a.2.1) * t, a.2.2 + (b.2.2 - a.2.2) * t)

/-- The per-edge intersection test `checkEdge` of `BVHSlicer.sliceAtPlane`
(BVHSlicer.ts lines 69–81): an edge produces a point when its endpoint
coordinates along the axis straddle the plane and the denominator is not
within `EDGE_EPS` of zero; the interpolation parameter is clamped to `[0,1]`. -/
def checkEdge (s e : Point3) (pos : ℚ) (ax : Axis) : Option Point3 :=
  let a := coord3 s ax
  let b := coord3 e ax
  if (a ≤ pos ∧ b ≥ pos) ∨ (a ≥ pos ∧ b ≤ pos) then
    let denom := b - a
    if |denom| < edgeEps then none
    else some (lerp3 s e (clamp01 ((pos - a) / denom)))
  else none

/-- The raw intersection points a triangle reports against a plane:
`checkEdge(v1,v2); checkEdge(v2,v3); checkEdge(v3,v1)` in source order. -/
def rawPoints (tri : Triangle) (pos : ℚ) (ax : Axis) : List Point3 :=
  (checkEdge tri.1 tri.2.1 pos ax).toList ++
    (checkEdge tri.2.1 tri.2.2 pos ax).toList ++
      (checkEdge tri.2.2 tri.1 pos ax).toList

/-- One step of the 3-point deduplication (BVHSlicer.ts lines 91–101):
a point is dropped when it is within `EDGE_EPS` of a point already kept. -/
def dedupStep (acc : List Point3) (p : Point3) : List Point3 :=
  if acc.any (fun q => decide (dSq3 p q < edgeEps ^ 2)) then acc else acc ++ [p]

/-- Deduplicate a list of raw intersection points against the points kept
so far, starting from the first point, exactly as the source loop does. -/
def dedupPts : List Point3 → List Point3
  | [] => []
  | p :: rest => rest.foldl dedupStep [p]

/-- What `intersectsTriangle` contributes for one triangle: a 2-point
segment for 2 raw points; for 3 raw points, the deduplicated pair when the
deduplication leaves exactly 2 points; nothing otherwise. -/
def emitTriangle (tri : Triangle) (pos : ℚ) (ax : Axis) : Option (List Point3) :=
  let raw := rawPoints tri pos ax
  if raw.length = 2 then some raw
  else if raw.length = 3 then
    let ded := dedupPts raw
    if ded.length = 2 then some ded else none
  else none

/-- `BVHSlicer.sliceAtPlane`: all triangle/plane intersection segments.
The BVH pruning is semantics-preserving (see the module docstring), so the
result is the per-triangle emission over the whole mesh. -/
def sliceAtPlane (tris : List Triangle) (pos : ℚ) (ax : Axis) : List (List Point3) :=
  tris.filterMap (fun tri => emitTriangle tri pos ax)

/-- Triangles of an indexed geometry: indices are consumed in triples, each
index selecting a vertex of the position buffer. -/
def trianglesOf (pos : List Point3) : List ℕ → List Triangle
  | i :: j :: k :: rest =>
      (pos.getD i (0, 0, 0), pos.getD j (0, 0, 0), pos.getD k (0, 0, 0)) :: trianglesOf pos rest
  | _ => []

/-! ### Scale-aware tolerances (StlSlicer.ts lines 273–278) -/

/-- `Math.max(diagonal, 1e-10)` — guard against degenerate models. -/
def safeDiag (diag : ℚ) : ℚ := max diag (1 / 10 ^ 10)

/-- Point-deduplication tolerance `TOLERANCE = safeDiag * 1e-5`. -/
def tolerance (diag : ℚ) : ℚ := safeDiag diag * (1 / 10 ^ 5)

/-- Zero-length-segment filter `ZERO_LENGTH_TOL = safeDiag * 1e-6`. -/
def zeroLenTol (diag : ℚ) : ℚ := safeDiag diag * (1 / 10 ^ 6)

/-- Minimum viable path perimeter `MIN_PATH_LENGTH = safeDiag * 1e-3`. -/
def minPathLength (diag : ℚ) : ℚ := safeDiag diag * (1 / 10 ^ 3)

/-- Fallback neighbor-search radius `FALLBACK_RADIUS = safeDiag * 1e-4`. -/
def fallbackRadius (diag : ℚ) : ℚ := safeDiag diag * (1 / 10 ^ 4)

/-! ### 2-D projection (StlSlicer.ts `convertTo2D`, lines 665–677) -/

/-- A `THREE.Vector3`-shaped JavaScript value as `convertTo2D` receives it:
each field is `some q` when it holds a number and `none` when it holds a
non-number value (`typeof point.x !== 'number'`). -/
abbrev JPoint : Type := Option ℚ × Option ℚ × Option ℚ

/-- `convertTo2D`: a missing point or a point with a non-number field maps
to the 2-D origin; otherwise the coordinate along the slicing axis is
dropped (x ↦ (y,z), y ↦ (x,z), z ↦ (x,y)). -/
def convertTo2D (p : Option JPoint) (ax : Axis) : Point2 :=
  match p with
  | none => (0, 0)
  | some (some x, some y, some z) =>
    match ax with
    | Axis.x => (y, z)
    | Axis.y => (x, z)
    | Axis.z => (x, y)
  | some _ => (0, 0)

/-- View a well-formed 3-D point as the JavaScript value handed to
`convertTo2D` by `buildPaths`. -/
def toJPoint (p : Point3) : Option JPoint := some (some p.1, some p.2.1, some p.2.2)

/-! ### The abstract 2-D metric

`buildPaths` measures 2-D points with `THREE.Vector2.distanceTo`, whose
exact value is irrational in general.  It is abstracted as a function
parameter `d : Dist2`; the concrete evaluations below use `taxiDist` on
configurations where all points share their second coordinate, on which
the taxicab and Euclidean metrics agree exactly. -/

/-- An abstract 2-D point metric. -/
abbrev Dist2 : Type := Point2 → Point2 → ℚ

/-- The taxicab metric, used to instantiate `Dist2` on axis-aligned
configurations. -/
def taxiDist (p q : Point2) : ℚ := |p.1 - q.1| + |p.2 - q.2|

/-- Squared Euclidean distance of two 2-D points. -/
def dSq2 (p q : Point2) : ℚ := (p.1 - q.1) ^ 2 + (p.2 - q.2) ^ 2

/-- On two points sharing their second coordinate the taxicab metric is
nonnegative and its square is the squared Euclidean distance — i.e. it is
exactly the Euclidean distance there. -/
theorem taxiDist_euclid_on_row (p q : Point2) (h : p.2 = q.2) :
    0 ≤ taxiDist p q ∧ taxiDist p q ^ 2 = dSq2 p q := by
  constructor
  · have h1 := abs_nonneg (p.1 - q.1)
    have h2 := abs_nonneg (p.2 - q.2)
    unfold taxiDist
    linarith
  · unfold taxiDist dSq2
    rw [h]
    simp [sq_abs]

/-! ### Segment extraction (StlSlicer.ts lines 280–301) -/

/-- A 2-D segment. -/
abbrev Seg : Type := Point2 × Point2

/-- Convert raw 3-D edges to 2-D segments: keep only well-formed 2-point
edges, project them, and drop segments of length at most
`ZERO_LENGTH_TOL`. -/
def segmentsOf (d : Dist2) (edges : List (List Point3)) (ax : Axis) (diag : ℚ) : List Seg :=
  edges.filterMap (fun e =>
    match e with
    | [p1, p2] =>
      let q1 := convertTo2D (toJPoint p1) ax
      let q2 := convertTo2D (toJPoint p2) ax
      if zeroLenTol diag < d q1 q2 then some (q1, q2) else none
    | _ => none)

/-! ### Graph construction (StlSlicer.ts lines 303–344) -/

/-- A graph node: a deduplicated 2-D point, its insertion-ordered adjacency
list (a JavaScript `Set`), and the trace bookkeeping flag. -/
structure Node : Type where
  pos : Point2
  conns : List ℕ
  used : Bool
deriving DecidableEq, Repr

/-- Default node, only used for out-of-range `getD` reads that the source
never performs. -/
def dNode : Node := ⟨(0, 0), [], false⟩

/-- `Math.round` of JavaScript rounds half-up. -/
def jround (q : ℚ) : ℤ := ⌊q + 1 / 2⌋

/-- `getPointKey`: the quantized key of a point, modelled as the pair of
rounded quotients (the source's string `"a,b"` encodes the same pair
injectively). -/
def pointKey (tol : ℚ) (p : Point2) : ℤ × ℤ := (jround (p.1 / tol), jround (p.2 / tol))

/-- The node arena plus the key → index map (`nodes` and `nodeMap`). -/
structure SliceGraph : Type where
  nodes : List Node
  keyMap : List ((ℤ × ℤ) × ℕ)
deriving DecidableEq, Repr

/-- First-match lookup in the key → index association list (`Map.get`). -/
def lookupKey : List ((ℤ × ℤ) × ℕ) → (ℤ × ℤ) → Option ℕ
  | [], _ => none
  | (k, v) :: rest, key => if key = k then some v else lookupKey rest key

/-- `getNodeIndex`: look the quantized key up; on a miss, append a fresh
node and register its key. -/
def getNodeIndex (tol : ℚ) (g : SliceGraph) (p : Point2) : SliceGraph × ℕ :=
  let k := pointKey tol p
  match lookupKey g.keyMap k with
  | some i => (g, i)
  | none =>
      (⟨g.nodes ++ [⟨p, [], false⟩], g.keyMap ++ [(k, g.nodes.length)]⟩, g.nodes.length)

/-- JavaScript `Set.add` on an insertion-ordered duplicate-free list. -/
def addConn (l : List ℕ) (n : ℕ) : List ℕ := if n ∈ l then l else l ++ [n]

/-- Update the node at an index in the arena. -/
def modifyNode : List Node → ℕ → (Node → Node) → List Node
  | [], _, _ => []
  | a :: l, 0, f => f a :: l
  | a :: l, n + 1, f => a :: modifyNode l n f

/-- Register one segment in the graph: intern both endpoints and record the
undirected edge unless the endpoints collapse to one node. -/
def addSegment (tol : ℚ) (g : SliceGraph) (s : Seg) : SliceGraph :=
  let (g1, i1) := getNodeIndex tol g s.1
  let (g2, i2) := getNodeIndex tol g1 s.2
  if i1 = i2 then g2
  else
    { g2 with
      nodes :=
        modifyNode (modifyNode g2.nodes i1 (fun n => { n with conns := addConn n.conns i2 }))
          i2 (fun n => { n with conns := addConn n.conns i1 }) }

/-- Build the whole graph from the segment list. -/
def buildGraph (tol : ℚ) (segs : List Seg) : SliceGraph :=
  segs.foldl (addSegment tol) ⟨[], []⟩

/-- Position of the node at an index. -/
def posOf (nodes : List Node) (i : ℕ) : Point2 := (nodes.getD i dNode).pos

/-- Adjacency list of the node at an index. -/
def connsOf (nodes : List Node) (i : ℕ) : List ℕ := (nodes.getD i dNode).conns

/-- Mark the node at an index as used. -/
def markUsed (nodes : List Node) (i : ℕ) : List Node :=
  modifyNode nodes i (fun n => { n with used := true })

/-- Clear the used flag of every listed node (trace rollback). -/
def unmarkAll (nodes : List Node) (idxs : List ℕ) : List Node :=
  idxs.foldl (fun ns i => modifyNode ns i (fun n => { n with used := false })) nodes

/-! ### Junction choice (StlSlicer.ts `chooseBestConnection`, lines 350–383)

The source compares `|atan2(w) - atan2(u)|` wrapped into `[0, π]`, i.e. the
unsigned angle between the incoming direction `u` and each candidate
direction.  For nonzero vectors, angles in `[0, π]` are ordered opposite to
their cosines `⟪u,v⟫ / (‖u‖‖v‖)`, and comparing the cosines of `v` and `w`
against a common `u` reduces to sign analysis of the inner products
followed by comparison of their squares weighted by the squared norms.
This embeds the comparison exactly in rational arithmetic.  (Candidate and
previous nodes are distinct graph nodes and distinct graph nodes have
distinct positions, so the direction vectors are nonzero.) -/

/-- Inner product of 2-D vectors. -/
def dot2 (u v : Point2) : ℚ := u.1 * v.1 + u.2 * v.2

/-- Squared norm of a 2-D vector. -/
def normSq2 (v : Point2) : ℚ := v.1 ^ 2 + v.2 ^ 2

/-- Whether the unsigned angle from `u` to `v` is strictly smaller than the
unsigned angle from `u` to `w` (the source's `diff < bestAngleDiff`). -/
def angleLt (u v w : Point2) : Bool :=
  let sv := dot2 u v
  let sw := dot2 u w
  if 0 ≤ sv ∧ sw < 0 then true
  else if sv < 0 ∧ 0 ≤ sw then false
  else if 0 ≤ sv then decide (sw ^ 2 * normSq2 v < sv ^ 2 * normSq2 w)
  else decide (sv ^ 2 * normSq2 w < sw ^ 2 * normSq2 v)

/-- Vector from `p` to `q`. -/
def dir2 (p q : Point2) : Point2 := (q.1 - p.1, q.2 - p.2)

/-- `chooseBestConnection`: among the current node's connections not in the
exclusion set, pick the single candidate, else the first candidate when
there is no incoming direction, else the candidate with the smallest
turning angle (first wins ties, as the source's strict `<` does). -/
def chooseBest (nodes : List Node) (prev? : Option ℕ) (cur : ℕ) (excl : List ℕ) : Option ℕ :=
  let cands := (connsOf nodes cur).filter (fun c => decide (c ∉ excl))
  match cands with
  | [] => none
  | [c] => some c
  | c0 :: rest =>
    match prev? with
    | none => some c0
    | some p =>
      let u := dir2 (posOf nodes p) (posOf nodes cur)
      some (rest.foldl
        (fun best cand =>
          if angleLt u (dir2 (posOf nodes cur) (posOf nodes cand))
              (dir2 (posOf nodes cur) (posOf nodes best)) then cand else best)
        c0)

/-! ### Primary trace (StlSlicer.ts `findContours`, lines 388–469) -/

/-- Result of one trace walk. -/
structure TraceRes : Type where
  nodes : List Node
  path : List Point2
  idxs : List ℕ
  complete : Bool
  len : ℚ
deriving DecidableEq, Repr

/-- The trace `while` loop.  One iteration: rebuild the exclusion set (the
path's nodes minus the start), pick the next connection, detect closure,
otherwise advance, mark, extend the path and perimeter, and stop past the
safety bound `path.length > segments.length * 2`.  The fuel passed by
`contoursLoop` exceeds the safety bound, so exhaustion is unreachable. -/
def traceLoop (d : Dist2) (segCount : ℕ) (start : ℕ) :
    ℕ → List Node → List Point2 → List ℕ → ℕ → Option ℕ → ℚ → TraceRes
  | 0, nodes, path, idxs, _, _, len => ⟨nodes, path, idxs, false, len⟩
  | fuel + 1, nodes, path, idxs, cur, prev?, len =>
    let excl := idxs.filter (fun j => decide (j ≠ start))
    match chooseBest nodes prev? cur excl with
    | none => ⟨nodes, path, idxs, false, len⟩
    | some n =>
      if n = start then
        ⟨nodes, path, idxs, true, len + d (posOf nodes cur) (posOf nodes start)⟩
      else
        let nodes1 := markUsed nodes n
        let path1 := path ++ [posOf nodes n]
        let len1 := len + d (posOf nodes n) (path.getLastD (0, 0))
        if segCount * 2 < path1.length then ⟨nodes1, path1, idxs ++ [n], false, len1⟩
        else traceLoop d segCount start fuel nodes1 path1 (idxs ++ [n]) n (some cur) len1

/-- One full trace from a start node: mark the start, walk, and report. -/
def traceFrom (d : Dist2) (segCount : ℕ) (nodes : List Node) (start : ℕ) : TraceRes :=
  traceLoop d segCount start (segCount * 2 + 2) (markUsed nodes start)
    [posOf nodes start] [start] start none 0

/-- Degree rank used by the start-order comparator: degree-1 nodes first,
then degree-2, then the rest. -/
def degRank (deg : ℕ) : ℕ := if deg = 1 then 0 else if deg = 2 then 1 else 2

/-- The start-order comparator (a total order: rank, then node id). -/
def startLe (nodes : List Node) (a b : ℕ) : Bool :=
  let ra := degRank (connsOf nodes a).length
  let rb := degRank (connsOf nodes b).length
  decide (ra < rb ∨ (ra = rb ∧ a ≤ b))

/-- Ordered insertion for the start-order sort. -/
def insertOrd (le : ℕ → ℕ → Bool) (a : ℕ) : List ℕ → List ℕ
  | [] => [a]
  | b :: l => if le a b then a :: b :: l else b :: insertOrd le a l

/-- Sort by a total `≤`-comparator (insertion sort; the comparator is a
total order, so the sorted sequence is the unique one the source's
`Array.sort` produces). -/
def sortByLe (le : ℕ → ℕ → Bool) (l : List ℕ) : List ℕ := l.foldr (insertOrd le) []

/-- `startOrder`: all node indices sorted by (degree rank, id). -/
def startOrder (nodes : List Node) : List ℕ :=
  sortByLe (startLe nodes) (List.range nodes.length)

/-- Decide whether a completed trace is accepted, and if so in which shape
(closing point appended when the geometric gap exceeds the merge
tolerance), exactly as lines 451–465 do. -/
def contoursLoop (d : Dist2) (segCount : ℕ) (diag : ℚ) :
    List ℕ → List Node → List (List Point2) → List Node × List (List Point2)
  | [], nodes, acc => (nodes, acc)
  | s :: rest, nodes, acc =>
    if (nodes.getD s dNode).used then contoursLoop d segCount diag rest nodes acc
    else if 2 < (connsOf nodes s).length then contoursLoop d segCount diag rest nodes acc
    else
      let t := traceFrom d segCount nodes s
      if 3 ≤ t.path.length ∧ minPathLength diag < t.len then
        let p :=
          if t.complete ∧ tolerance diag < d (t.path.headD (0, 0)) (t.path.getLastD (0, 0)) then
            t.path ++ [t.path.headD (0, 0)]
          else t.path
        contoursLoop d segCount diag rest t.nodes (acc ++ [p])
      else contoursLoop d segCount diag rest (unmarkAll t.nodes t.idxs) acc

/-! ### Secondary pass (StlSlicer.ts `handleRemainingSegments`, lines 473–563) -/

/-- `findBestNextNode`: the unused, unvisited connection with the fewest
connections (strict improvement, first wins ties). -/
def findBestNextNode (nodes : List Node) (cur : ℕ) (visited : List ℕ) : Option ℕ :=
  ((connsOf nodes cur).foldl
    (fun acc nid =>
      if nid ∈ visited then acc
      else if (nodes.getD nid dNode).used then acc
      else
        let score := (connsOf nodes nid).length
        match acc with
        | none => some (nid, score)
        | some pr => if score < pr.2 then some (nid, score) else acc)
    none).map Prod.fst

/-- The forward-extension loop: repeatedly append the best next node.  One
iteration adds a node to the visited set, so `nodes.length + 1` fuel makes
exhaustion unreachable. -/
def extForward (d : Dist2) (nodes : List Node) :
    ℕ → List ℕ → List Point2 → ℕ → ℚ → List ℕ × List Point2 × ℚ
  | 0, visited, path, _, len => (visited, path, len)
  | fuel + 1, visited, path, cur, len =>
    match findBestNextNode nodes cur visited with
    | none => (visited, path, len)
    | some n =>
      extForward d nodes fuel (visited ++ [n]) (path ++ [posOf nodes n]) n
        (len + d (posOf nodes n) (posOf nodes cur))

/-- The backward-extension loop: repeatedly prepend the best next node,
with its own visited set. -/
def extBackward (d : Dist2) (nodes : List Node) :
    ℕ → List ℕ → List Point2 → ℕ → ℚ → List ℕ × List Point2 × ℚ
  | 0, visited, path, _, len => (visited, path, len)
  | fuel + 1, visited, path, cur, len =>
    match findBestNextNode nodes cur visited with
    | none => (visited, path, len)
    | some n =>
      extBackward d nodes fuel (visited ++ [n]) (posOf nodes n :: path) n
        (len + d (posOf nodes n) (posOf nodes cur))

/-- Mark every listed node as used. -/
def markList (nodes : List Node) (idxs : List ℕ) : List Node :=
  idxs.foldl markUsed nodes

/-- The emission decision of the secondary pass (lines 539–557): a path
whose endpoints are within the merge tolerance is pushed as-is; else it is
closed by appending its first point exactly when the two endpoint nodes
are directly graph-connected; else it is pushed open, as-is. -/
def secondaryEmit (d : Dist2) (diag : ℚ) (keyMap : List ((ℤ × ℤ) × ℕ)) (nodes : List Node)
    (p : List Point2) : List Point2 :=
  let first := p.headD (0, 0)
  let last := p.getLastD (0, 0)
  if d first last < tolerance diag then p
  else
    match lookupKey keyMap (pointKey (tolerance diag) first),
        lookupKey keyMap (pointKey (tolerance diag) last) with
    | some si, some ei => if ei ∈ connsOf nodes si then p ++ [first] else p
    | _, _ => p

/-- The secondary pass over all node indices: extend each unused node
forward and backward with separate visited sets, accept when the combined
path has ≥ 3 points and perimeter above the minimum, marking the visited
nodes only on acceptance. -/
def remLoop (d : Dist2) (diag : ℚ) (keyMap : List ((ℤ × ℤ) × ℕ)) :
    List ℕ → List Node → List (List Point2) → List Node × List (List Point2)
  | [], nodes, acc => (nodes, acc)
  | i :: rest, nodes, acc =>
    if (nodes.getD i dNode).used then remLoop d diag keyMap rest nodes acc
    else
      let f := extForward d nodes (nodes.length + 1) [i] [posOf nodes i] i 0
      let b := extBackward d nodes (nodes.length + 1) [i] [] i f.2.2
      let fullPath := b.2.1 ++ f.2.1
      if 3 ≤ fullPath.length ∧ minPathLength diag < b.2.2 then
        let nodes1 := markList (markList nodes f.1) b.1
        remLoop d diag keyMap rest nodes1 (acc ++ [secondaryEmit d diag keyMap nodes1 fullPath])
      else remLoop d diag keyMap rest nodes acc

/-- Both graph-trace passes: the contour pass over the sorted start order,
then the secondary pass over all nodes, accumulating into one path list. -/
def tracedPaths (d : Dist2) (segs : List Seg) (diag : ℚ) : List (List Point2) :=
  let g := buildGraph (tolerance diag) segs
  let r1 := contoursLoop d segs.length diag (startOrder g.nodes) g.nodes []
  (remLoop d diag g.keyMap (List.range r1.1.length) r1.1 r1.2).2

/-! ### Segment-pairing fallback (StlSlicer.ts lines 567–641) -/

/-- The endpoint of a segment selected by the source's `endIdx`
(`false` for `seg[0]`, `true` for `seg[1]`). -/
def segEndpoint (segs : List Seg) (i : ℕ) (e : Bool) : Point2 :=
  let s := segs.getD i ((0, 0), (0, 0))
  if e then s.2 else s.1

/-- `findClosestSegment`: the unused segment endpoint strictly closest to a
point, searching with the fallback radius as the initial best distance, so
a match always lies strictly within the radius. -/
def findClosestSegment (d : Dist2) (segs : List Seg) (radius : ℚ) (pt : Point2)
    (excl : List ℕ) : Option (ℕ × Bool) :=
  ((List.range segs.length).foldl
    (fun acc i =>
      if i ∈ excl then acc
      else
        [false, true].foldl
          (fun acc e =>
            let dist := d pt (segEndpoint segs i e)
            if dist < acc.1 then (dist, some (i, e)) else acc)
          acc)
    (radius, none)).2

/-- The forward chaining loop of the fallback: match the path's tail
against unused segment endpoints and append the matched segment's other
endpoint.  Each iteration consumes one unused segment, so
`segs.length + 1` fuel makes exhaustion unreachable. -/
def fbForward (d : Dist2) (segs : List Seg) (radius : ℚ) :
    ℕ → List ℕ → List Point2 → List ℕ × List Point2
  | 0, used, path => (used, path)
  | fuel + 1, used, path =>
    match findClosestSegment d segs radius (path.getLastD (0, 0)) used with
    | none => (used, path)
    | some (i, e) => fbForward d segs radius fuel (used ++ [i]) (path ++ [segEndpoint segs i (!e)])

/-- The backward chaining loop of the fallback: match the path's head and
prepend the matched segment's other endpoint. -/
def fbBackward (d : Dist2) (segs : List Seg) (radius : ℚ) :
    ℕ → List ℕ → List Point2 → List ℕ × List Point2
  | 0, used, path => (used, path)
  | fuel + 1, used, path =>
    match findClosestSegment d segs radius (path.headD (0, 0)) used with
    | none => (used, path)
    | some (i, e) => fbBackward d segs radius fuel (used ++ [i]) (segEndpoint segs i (!e) :: path)

/-- The outer fallback loop: each unused segment seeds a path of its two
endpoints, which is extended forward then backward; paths with at least
3 points are kept (no perimeter check in this pass). -/
def fbOuter (d : Dist2) (segs : List Seg) (radius : ℚ) :
    List ℕ → List ℕ → List (List Point2) → List (List Point2)
  | [], _, acc => acc
  | i :: rest, used, acc =>
    if i ∈ used then fbOuter d segs radius rest used acc
    else
      let s := segs.getD i ((0, 0), (0, 0))
      let f := fbForward d segs radius (segs.length + 1) (used ++ [i]) [s.1, s.2]
      let b := fbBackward d segs radius (segs.length + 1) f.1 f.2
      fbOuter d segs radius rest b.1 (if 3 ≤ b.2.length then acc ++ [b.2] else acc)

/-- The segment-pairing fallback over the whole segment list. -/
def fallbackPaths (d : Dist2) (segs : List Seg) (radius : ℚ) : List (List Point2) :=
  fbOuter d segs radius (List.range segs.length) [] []

/-! ### Final cleanup and assembly (StlSlicer.ts lines 268–660) -/

/-- The final per-path cleanup (lines 645–659): a path of ≥ 3 points whose
endpoint gap is positive but within the merge tolerance is snapped shut by
appending a duplicate of its first point; every other path is returned
untouched. -/
def finalClose (d : Dist2) (diag : ℚ) (path : List Point2) : List Point2 :=
  if path.length < 3 then path
  else
    let gap := d (path.headD (0, 0)) (path.getLastD (0, 0))
    if 0 < gap ∧ gap ≤ tolerance diag then path ++ [path.headD (0, 0)]
    else path

/-- `buildPaths`: convert edges to 2-D segments, run the two graph-trace
passes, fall back to segment chaining when they produce nothing, and apply
the final cleanup. -/
def buildPaths (d : Dist2) (edges : List (List Point3)) (ax : Axis) (diag : ℚ) :
    List (List Point2) :=
  match edges with
  | [] => []
  | _ =>
    let segs := segmentsOf d edges ax diag
    match segs with
    | [] => []
    | _ =>
      let pre := tracedPaths d segs diag
      let pre1 := if pre = [] then fallbackPaths d segs (fallbackRadius diag) else pre
      pre1.map (finalClose d diag)

/-- Total perimeter of a path: the sum of the distances of consecutive
points (the quantity the spec's minimum-viable-path invariant is about). -/
def pathPerim (d : Dist2) : List Point2 → ℚ
  | p :: q :: rest => d p q + pathPerim d (q :: rest)
  | _ => 0

/-! ### 2-D bounds (StlSlicer.ts `computePathBounds`, lines 22–43)

The JavaScript scan starts the accumulators at `±Infinity` and detects the
no-points case by `minX === Infinity`; the infinities are modelled by
`Option ℚ` accumulators (`none` = not yet touched by any point), which the
per-point `<` / `>` updates treat exactly as the infinities. -/

/-- `{minX, maxX, minY, maxY}`. -/
structure PathBounds : Type where
  minX : ℚ
  maxX : ℚ
  minY : ℚ
  maxY : ℚ
deriving DecidableEq, Repr

/-- `if (x < minX) minX = x`, with `none` standing for `Infinity`. -/
def updMin (acc : Option ℚ) (x : ℚ) : Option ℚ :=
  match acc with
  | none => some x
  | some m => if x < m then some x else some m

/-- `if (x > maxX) maxX = x`, with `none` standing for `-Infinity`. -/
def updMax (acc : Option ℚ) (x : ℚ) : Option ℚ :=
  match acc with
  | none => some x
  | some m => if m < x then some x else some m

/-- The four running accumulators, updated from one point. -/
def boundsStep (a : Option ℚ × Option ℚ × Option ℚ × Option ℚ) (p : Point2) :
    Option ℚ × Option ℚ × Option ℚ × Option ℚ :=
  (updMin a.1 p.1, updMax a.2.1 p.1, updMin a.2.2.1 p.2, updMax a.2.2.2 p.2)

/-- `computePathBounds`: a single scan over every point of every path;
all-zero bounds when no point exists. -/
def computePathBounds (paths : List (List Point2)) : PathBounds :=
  let acc := paths.foldl (fun a path => path.foldl boundsStep a) (none, none, none, none)
  match acc with
  | (some mnx, some mxx, some mny, some mxy) => ⟨mnx, mxx, mny, mxy⟩
  | _ => ⟨0, 0, 0, 0⟩

/-! ### Layer assembly (StlSlicer.ts `sliceModel`, lines 161–242)

`createSlice` computes the bounding-box diagonal `‖bbox.size‖` (irrational
in general) once per slice; it is threaded through as the explicit
parameter `diag`, alongside the abstract 2-D metric `d`. -/

/-- One slicing layer (`LayerData`). -/
structure Layer : Type where
  index : ℕ
  z : ℚ
  paths : List (List Point2)
  bounds : PathBounds
deriving DecidableEq, Repr

/-- The layer count `Math.max(2, Math.ceil((end - start) / thickness))`. -/
def layerCount (s e th : ℚ) : ℕ := (max 2 ⌈(e - s) / th⌉).toNat

/-- The adjusted layer thickness `(end - start) / (layerCount - 1)`. -/
def adjustedThickness (s e th : ℚ) : ℚ := (e - s) / ((layerCount s e th : ℚ) - 1)

/-- Build the layer at one slice index: slice at
`z = start + i * adjustedThickness`, assemble paths, cache bounds. -/
def mkLayer (d : Dist2) (tris : List Triangle) (ax : Axis) (diag s adjTh : ℚ) (i : ℕ) : Layer :=
  let z := s + i * adjTh
  let paths := buildPaths d (sliceAtPlane tris z ax) ax diag
  ⟨i, z, paths, computePathBounds paths⟩

/-- `sliceModel`: the ordered layer list over the evenly distributed slice
positions of the bounding-box range along the chosen axis. -/
def sliceModelLayers (d : Dist2) (tris : List Triangle) (bbMin bbMax : Point3) (ax : Axis)
    (th diag : ℚ) : List Layer :=
  let s := coord3 bbMin ax
  let e := coord3 bbMax ax
  (List.range (layerCount s e th)).map (mkLayer d tris ax diag s (adjustedThickness s e th))

/-- The values passed to the progress callback, one per completed layer:
`((i + 1) / layerCount) * 100`, in layer order (the callback itself is
modelled as the list of the values it is invoked with). -/
def progressReports (s e th : ℚ) : List ℚ :=
  (List.range (layerCount s e th)).map
    (fun i : ℕ => (((i : ℚ) + 1) / (layerCount s e th : ℚ)) * 100)

/-! ### The stateful entry point (for the frame condition of `sliceModel`)

`StlSlicer` the class holds `geometry` and `boundingBox` as fields;
`sliceModel` reads them, throws when they are missing, synthesizes an
index buffer into the geometry when it has none, and otherwise only reads.
The mutable fields are modelled as an explicit state threaded through. -/

/-- The loaded geometry: the position attribute (absent when the buffer
has no `position`) and the optional index buffer. -/
structure Geometry : Type where
  position : Option (List Point3)
  index : Option (List ℕ)
deriving DecidableEq, Repr

/-- The slicer's mutable fields read or written by `sliceModel`. -/
structure SlicerState : Type where
  geometry : Option Geometry
  boundingBox : Option (Point3 × Point3)
deriving DecidableEq, Repr

/-- `sliceModel` as a state transformer: all `throw` sites become `error`,
and the returned state reflects the only write `sliceModel` can perform
(synthesizing the identity index buffer when the geometry has none).
The per-slice query goes through the BVH built over this same geometry at
load time; since the BVH is built once per loaded mesh and never mutated,
its triangle set is the geometry's `trianglesOf pos idx`. -/
def sliceModelS (d : Dist2) (diag : ℚ) (st : SlicerState) (ax : Axis) (th : ℚ) :
    Except String (SlicerState × List Layer) :=
  match st.geometry, st.boundingBox with
  | none, _ => Except.error "No model loaded"
  | some _, none => Except.error "No model loaded"
  | some g, some bb =>
    match g.position with
    | none => Except.error "Invalid geometry: missing position attribute"
    | some pos =>
      let st1 : SlicerState :=
        match g.index with
        | some _ => st
        | none => { st with geometry := some { g with index := some (List.range pos.length) } }
      match st1.geometry with
      | none => Except.error "Failed to create geometry indices"
      | some g1 =>
        match g1.index with
        | none => Except.error "Failed to create geometry indices"
        | some idx =>
          Except.ok (st1, sliceModelLayers d (trianglesOf pos idx) bb.1 bb.2 ax th diag)

/-! ### A concrete `buildPaths` run

Two identical short edges (as adjacent coplanar triangles produce) on the
row `y = 0`, `diagonal = 1`.  All points of the run lie on one row, so the
taxicab instantiation of the abstract metric agrees with the Euclidean
distance at every call (`taxiDist_euclid_on_row`).  The graph passes
reject every trace (perimeter `1/1250` is below `MIN_PATH_LENGTH =
1/1000`), and the segment-pairing fallback then emits the 3-point path
`[(0,0), (1/2500,0), (0,0)]`, which `buildPaths` returns although its
perimeter `1/1250` is below the minimum viable path length. -/

lemma c2x_segments :
    segmentsOf taxiDist [[(0, 0, 0), (1/2500, 0, 0)], [(0, 0, 0), (1/2500, 0, 0)]] Axis.z 1 =
      [((0, 0), (1/2500, 0)), ((0, 0), (1/2500, 0))] := by
  norm_num [-Prod.mk_zero_zero, segmentsOf, convertTo2D, toJPoint, zeroLenTol, safeDiag,
    taxiDist, abs_of_nonneg, abs_of_nonpos, List.filterMap_cons]

lemma c2x_graph :
    buildGraph (tolerance 1) [((0, 0), (1/2500, 0)), ((0, 0), (1/2500, 0))] =
      ⟨[⟨(0, 0), [1], false⟩, ⟨(1/2500, 0), [0], false⟩], [((0, 0), 0), ((40, 0), 1)]⟩ := by
  norm_num [-Prod.mk_zero_zero, buildGraph, addSegment, getNodeIndex, lookupKey,
    pointKey, jround, tolerance, safeDiag, addConn, modifyNode, Prod.ext_iff]

lemma c2x_order :
    startOrder [⟨(0, 0), [1], false⟩, ⟨(1/2500, 0), [0], false⟩] = [0, 1] := by
  norm_num [-Prod.mk_zero_zero, startOrder, sortByLe, insertOrd, startLe, degRank, connsOf,
    dNode, List.range, List.range.loop]

lemma c2x_trace0 :
    traceFrom taxiDist 2 [⟨(0, 0), [1], false⟩, ⟨(1/2500, 0), [0], false⟩] 0 =
      ⟨[⟨(0, 0), [1], true⟩, ⟨(1/2500, 0), [0], true⟩],
        [(0, 0), (1/2500, 0)], [0, 1], true, 1/1250⟩ := by
  norm_num [-Prod.mk_zero_zero, traceFrom, traceLoop, chooseBest, posOf, connsOf, markUsed,
    modifyNode, dNode, taxiDist, dir2, angleLt, dot2, normSq2, abs_of_nonneg, abs_of_nonpos,
    List.filter_cons]

lemma c2x_trace1 :
    traceFrom taxiDist 2 [⟨(0, 0), [1], false⟩, ⟨(1/2500, 0), [0], false⟩] 1 =
      ⟨[⟨(0, 0), [1], true⟩, ⟨(1/2500, 0), [0], true⟩],
        [(1/2500, 0), (0, 0)], [1, 0], true, 1/1250⟩ := by
  norm_num [-Prod.mk_zero_zero, traceFrom, traceLoop, chooseBest, posOf, connsOf, markUsed,
    modifyNode, dNode, taxiDist, dir2, angleLt, dot2, normSq2, abs_of_nonneg, abs_of_nonpos,
    List.filter_cons]

set_option maxHeartbeats 1000000 in
lemma c2x_contours :
    contoursLoop taxiDist 2 1 [0, 1] [⟨(0, 0), [1], false⟩, ⟨(1/2500, 0), [0], false⟩] [] =
      ([⟨(0, 0), [1], false⟩, ⟨(1/2500, 0), [0], false⟩], []) := by
  norm_num [-Prod.mk_zero_zero, contoursLoop, connsOf, dNode, c2x_trace0, c2x_trace1,
    unmarkAll, modifyNode, minPathLength, tolerance, safeDiag]

lemma c2x_fbn00 :
    findBestNextNode [⟨(0, 0), [1], false⟩, ⟨(1/2500, 0), [0], false⟩] 0 [0] = some 1 := by
  norm_num [-Prod.mk_zero_zero, findBestNextNode, connsOf, dNode]

lemma c2x_fbn101 :
    findBestNextNode [⟨(0, 0), [1], false⟩, ⟨(1/2500, 0), [0], false⟩] 1 [0, 1] = none := by
  norm_num [-Prod.mk_zero_zero, findBestNextNode, connsOf, dNode]

lemma c2x_fbn11 :
    findBestNextNode [⟨(0, 0), [1], false⟩, ⟨(1/2500, 0), [0], false⟩] 1 [1] = some 0 := by
  norm_num [-Prod.mk_zero_zero, findBestNextNode, connsOf, dNode]

lemma c2x_fbn010 :
    findBestNextNode [⟨(0, 0), [1], false⟩, ⟨(1/2500, 0), [0], false⟩] 0 [1, 0] = none := by
  norm_num [-Prod.mk_zero_zero, findBestNextNode, connsOf, dNode]

lemma c2x_ef0 :
    extForward taxiDist [⟨(0, 0), [1], false⟩, ⟨(1/2500, 0), [0], false⟩] 3 [0] [(0, 0)] 0 0 =
      ([0, 1], [(0, 0), (1/2500, 0)], 1/2500) := by
  norm_num [-Prod.mk_zero_zero, extForward, c2x_fbn00, c2x_fbn101, posOf, dNode,
    taxiDist, abs_of_nonneg, abs_of_nonpos]

lemma c2x_eb0 :
    extBackward taxiDist [⟨(0, 0), [1], false⟩, ⟨(1/2500, 0), [0], false⟩] 3 [0] [] 0 (1/2500) =
      ([0, 1], [(1/2500, 0)], 1/1250) := by
  norm_num [-Prod.mk_zero_zero, extBackward, c2x_fbn00, c2x_fbn101, posOf, dNode,
    taxiDist, abs_of_nonneg, abs_of_nonpos]

lemma c2x_ef1 :
    extForward taxiDist [⟨(0, 0), [1], false⟩, ⟨(1/2500, 0), [0], false⟩] 3 [1]
        [(1/2500, 0)] 1 0 =
      ([1, 0], [(1/2500, 0), (0, 0)], 1/2500) := by
  norm_num [-Prod.mk_zero_zero, extForward, c2x_fbn11, c2x_fbn010, posOf, dNode,
    taxiDist, abs_of_nonneg, abs_of_nonpos]

lemma c2x_eb1 :
    extBackward taxiDist [⟨(0, 0), [1], false⟩, ⟨(1/2500, 0), [0], false⟩] 3 [1] [] 1 (1/2500) =
      ([1, 0], [(0, 0)], 1/1250) := by
  norm_num [-Prod.mk_zero_zero, extBackward, c2x_fbn11, c2x_fbn010, posOf, dNode,
    taxiDist, abs_of_nonneg, abs_of_nonpos]

lemma c2x_rem :
    remLoop taxiDist 1 [((0, 0), 0), ((40, 0), 1)] [0, 1]
        [⟨(0, 0), [1], false⟩, ⟨(1/2500, 0), [0], false⟩] [] =
      ([⟨(0, 0), [1], false⟩, ⟨(1/2500, 0), [0], false⟩], []) := by
  norm_num [-Prod.mk_zero_zero, remLoop, c2x_ef0, c2x_eb0, c2x_ef1, c2x_eb1, posOf,
    minPathLength, safeDiag, dNode]

lemma c2x_traced :
    tracedPaths taxiDist [((0, 0), (1/2500, 0)), ((0, 0), (1/2500, 0))] 1 = [] := by
  norm_num [-Prod.mk_zero_zero, tracedPaths, c2x_graph, c2x_order, c2x_contours, c2x_rem,
    List.range, List.range.loop]

lemma c2x_fcsB :
    findClosestSegment taxiDist [((0, 0), (1/2500, 0)), ((0, 0), (1/2500, 0))]
      (fallbackRadius 1) (1/2500, 0) [0] = some (1, true) := by
  norm_num [-Prod.mk_zero_zero, findClosestSegment, segEndpoint, fallbackRadius, safeDiag,
    taxiDist, abs_of_nonneg, abs_of_nonpos, List.range, List.range.loop]

lemma c2x_fcsA :
    findClosestSegment taxiDist [((0, 0), (1/2500, 0)), ((0, 0), (1/2500, 0))]
      (fallbackRadius 1) (0, 0) [0, 1] = none := by
  norm_num [-Prod.mk_zero_zero, findClosestSegment, segEndpoint, fallbackRadius, safeDiag,
    taxiDist, abs_of_nonneg, abs_of_nonpos, List.range, List.range.loop]

lemma c2x_fallback :
    fallbackPaths taxiDist [((0, 0), (1/2500, 0)), ((0, 0), (1/2500, 0))] (fallbackRadius 1) =
      [[(0, 0), (1/2500, 0), (0, 0)]] := by
  norm_num [-Prod.mk_zero_zero, fallbackPaths, fbOuter, fbForward, fbBackward,
    c2x_fcsB, c2x_fcsA, segEndpoint, List.range, List.range.loop]

lemma c2x_buildPaths :
    buildPaths taxiDist [[(0, 0, 0), (1/2500, 0, 0)], [(0, 0, 0), (1/2500, 0, 0)]] Axis.z 1 =
      [[(0, 0), (1/2500, 0), (0, 0)]] := by
  norm_num [-Prod.mk_zero_zero, buildPaths, c2x_segments, c2x_traced, c2x_fallback,
    finalClose, taxiDist, tolerance, safeDiag, abs_of_nonneg, abs_of_nonpos]

/-! ### Characterization of the per-edge intersection test -/

/-- `checkEdge` produces a point exactly when the endpoint coordinates
along the axis straddle the plane and the denominator is at least
`EDGE_EPS` in magnitude; the produced point is the clamped interpolation. -/
lemma checkEdge_eq_some_iff (s e : Point3) (pos : ℚ) (ax : Axis) (pt : Point3) :
    checkEdge s e pos ax = some pt ↔
      ((coord3 s ax ≤ pos ∧ pos ≤ coord3 e ax) ∨ (coord3 e ax ≤ pos ∧ pos ≤ coord3 s ax)) ∧
        edgeEps ≤ |coord3 e ax - coord3 s ax| ∧
        pt = lerp3 s e (clamp01 ((pos - coord3 s ax) / (coord3 e ax - coord3 s ax))) := by
  unfold checkEdge
  dsimp only
  split
  · rename_i hstr
    split
    · rename_i hden
      constructor
      · intro h
        exact absurd h (by simp)
      · intro ⟨_, hge, _⟩
        exact absurd hden (not_lt.mpr hge)
    · rename_i hden
      constructor
      · intro h
        refine ⟨?_, not_lt.mp hden, (Option.some_inj.mp h).symm⟩
        rcases hstr with ⟨h1, h2⟩ | ⟨h1, h2⟩
        · exact Or.inl ⟨h1, h2⟩
        · exact Or.inr ⟨h2, h1⟩
      · intro ⟨_, _, hpt⟩
        rw [hpt]
  · rename_i hstr
    constructor
    · intro h
      exact absurd h (by simp)
    · intro ⟨hs, _, _⟩
      exact absurd (hs.elim (fun ⟨h1, h2⟩ => Or.inl ⟨h1, h2⟩)
        (fun ⟨h1, h2⟩ => Or.inr ⟨h2, h1⟩)) hstr

/-- The clamp always lands in the unit interval. -/
lemma clamp01_mem (t : ℚ) : 0 ≤ clamp01 t ∧ clamp01 t ≤ 1 := by
  unfold clamp01
  constructor
  · exact le_max_left 0 _
  · rcases le_total 0 (min 1 t) with h | h
    · rw [max_eq_right h]
      exact min_le_left 1 t
    · rw [max_eq_left h]
      norm_num

/-- C4: in `checkEdge`, an intersection point is produced if and only if
the edge's endpoint coordinates along the slicing axis lie on opposite
sides of (or exactly at) the plane position and the denominator's absolute
value is at least the fixed epsilon `1e-12`; and every produced point is
`lerp` of the endpoints at a parameter clamped into `[0, 1]`, so it lies
on the edge segment with no extrapolation. -/
theorem C4_checkEdge_guarded (s e : Point3) (pos : ℚ) (ax : Axis) :
    ((∃ pt, checkEdge s e pos ax = some pt) ↔
      (((coord3 s ax ≤ pos ∧ pos ≤ coord3 e ax) ∨
          (coord3 e ax ≤ pos ∧ pos ≤ coord3 s ax)) ∧
        edgeEps ≤ |coord3 e ax - coord3 s ax|)) ∧
      ∀ pt, checkEdge s e pos ax = some pt →
        ∃ t, 0 ≤ t ∧ t ≤ 1 ∧ pt = lerp3 s e t := by
  constructor
  · constructor
    · intro ⟨pt, hpt⟩
      have h := (checkEdge_eq_some_iff s e pos ax pt).mp hpt
      exact ⟨h.1, h.2.1⟩
    · intro ⟨hstr, hden⟩
      exact ⟨_, (checkEdge_eq_some_iff s e pos ax _).mpr ⟨hstr, hden, rfl⟩⟩
  · intro pt hpt
    have h := (checkEdge_eq_some_iff s e pos ax pt).mp hpt
    refine ⟨clamp01 ((pos - coord3 s ax) / (coord3 e ax - coord3 s ax)),
      (clamp01_mem _).1, (clamp01_mem _).2, h.2.2⟩

/-- Witness for C4 at a concrete edge: the edge from `(0,0,0)` to `(0,0,1)`
cut at `z = 1/2` yields its midpoint, a clamped on-edge interpolation. -/
theorem C4_witness :
    checkEdge (0, 0, 0) (0, 0, 1) (1/2) Axis.z = some (0, 0, 1/2) ∧
      ∃ t, 0 ≤ t ∧ t ≤ 1 ∧ ((0 : ℚ), (0 : ℚ), (1 : ℚ)/2) = lerp3 (0, 0, 0) (0, 0, 1) t := by
  have heq : checkEdge (0, 0, 0) (0, 0, 1) (1/2) Axis.z = some (0, 0, 1/2) := by
    norm_num [-Prod.mk_zero_zero, checkEdge, coord3, edgeEps, clamp01, lerp3]
  exact ⟨heq, (C4_checkEdge_guarded (0, 0, 0) (0, 0, 1) (1/2) Axis.z).2 _ heq⟩

/-- C10: `convertTo2D` is total: a missing point or one with a non-number
coordinate yields the 2-D origin, and a well-formed point is projected by
dropping the coordinate along the slicing axis (x ↦ (y,z), y ↦ (x,z),
z ↦ (x,y)). -/
theorem C10_convertTo2D_total :
    (∀ ax, convertTo2D none ax = (0, 0)) ∧
      (∀ ax (jx jy jz : Option ℚ), jx = none ∨ jy = none ∨ jz = none →
        convertTo2D (some (jx, jy, jz)) ax = (0, 0)) ∧
      ∀ x y z : ℚ,
        convertTo2D (some (some x, some y, some z)) Axis.x = (y, z) ∧
          convertTo2D (some (some x, some y, some z)) Axis.y = (x, z) ∧
          convertTo2D (some (some x, some y, some z)) Axis.z = (x, y) := by
  refine ⟨fun ax => rfl, ?_, fun x y z => ⟨rfl, rfl, rfl⟩⟩
  intro ax jx jy jz h
  rcases h with h | h | h
  · subst h
    rfl
  · subst h
    cases jx <;> rfl
  · subst h
    cases jx <;> cases jy <;> rfl

/-- Witness for C10: a point whose `x` field is not a number contributes
the 2-D origin instead of raising. -/
theorem C10_witness :
    convertTo2D (some (none, some 1, some 2)) Axis.z = (0, 0) :=
  C10_convertTo2D_total.2.1 Axis.z none (some 1) (some 2) (Or.inl rfl)

/-! ### Layer-count arithmetic (C1, C8) -/

/-- The layer count is always at least 2. -/
lemma two_le_layerCount (s e th : ℚ) : 2 ≤ layerCount s e th := by
  unfold layerCount
  have h2 : (2 : ℤ) ≤ max 2 ⌈(e - s) / th⌉ := le_max_left _ _
  omega

/-- The cast layer count minus one is nonzero. -/
lemma layerCount_cast_sub_one_ne (s e th : ℚ) : ((layerCount s e th : ℚ) - 1) ≠ 0 := by
  have h := two_le_layerCount s e th
  have : (2 : ℚ) ≤ (layerCount s e th : ℚ) := by exact_mod_cast h
  intro hc
  nlinarith

/-- C1: `sliceModel` produces exactly `max(2, ceil((end-start)/thickness))`
layers, index ascending from 0, layer `i` at slice position
`start + i * adjustedThickness` with the adjusted thickness
`(end-start)/(layerCount-1)`, so the first layer lies at `start` and the
last at `end`. -/
theorem C1_sliceModel_layer_positions (d : Dist2) (tris : List Triangle) (bbMin bbMax : Point3)
    (ax : Axis) (th diag : ℚ) (_hth : 0 < th)
    (_hse : coord3 bbMin ax ≤ coord3 bbMax ax) :
    (sliceModelLayers d tris bbMin bbMax ax th diag).length =
        (max 2 ⌈(coord3 bbMax ax - coord3 bbMin ax) / th⌉).toNat ∧
      (∀ i, ∀ h : i < (sliceModelLayers d tris bbMin bbMax ax th diag).length,
        ((sliceModelLayers d tris bbMin bbMax ax th diag).get ⟨i, h⟩).index = i ∧
          ((sliceModelLayers d tris bbMin bbMax ax th diag).get ⟨i, h⟩).z =
            coord3 bbMin ax +
              i * adjustedThickness (coord3 bbMin ax) (coord3 bbMax ax) th) ∧
      (∃ l0, (sliceModelLayers d tris bbMin bbMax ax th diag).head? = some l0 ∧
        l0.z = coord3 bbMin ax) ∧
      ∃ ll, (sliceModelLayers d tris bbMin bbMax ax th diag).getLast? = some ll ∧
        ll.z = coord3 bbMax ax := by
  set s := coord3 bbMin ax with hs
  set e := coord3 bbMax ax with he
  have hlen : (sliceModelLayers d tris bbMin bbMax ax th diag).length = layerCount s e th := by
    simp [sliceModelLayers, ← hs, ← he]
  have hget : ∀ i, ∀ h : i < (sliceModelLayers d tris bbMin bbMax ax th diag).length,
      (sliceModelLayers d tris bbMin bbMax ax th diag).get ⟨i, h⟩ =
        mkLayer d tris ax diag s (adjustedThickness s e th) i := by
    intro i h
    simp [sliceModelLayers, ← hs, ← he, mkLayer]
  have hn2 := two_le_layerCount s e th
  have hpos : 0 < (sliceModelLayers d tris bbMin bbMax ax th diag).length := by omega
  refine ⟨by rw [hlen]; rfl, ?_, ?_, ?_⟩
  · intro i h
    rw [hget i h]
    exact ⟨rfl, rfl⟩
  · refine ⟨(sliceModelLayers d tris bbMin bbMax ax th diag).get ⟨0, hpos⟩, ?_, ?_⟩
    · rw [List.head?_eq_getElem?, List.getElem?_eq_getElem hpos]
      rfl
    · rw [hget 0 hpos]
      simp [mkLayer]
  · have hlast : (sliceModelLayers d tris bbMin bbMax ax th diag).length - 1 <
        (sliceModelLayers d tris bbMin bbMax ax th diag).length := by omega
    refine ⟨(sliceModelLayers d tris bbMin bbMax ax th diag).get ⟨_, hlast⟩, ?_, ?_⟩
    · rw [List.getLast?_eq_getElem?, List.getElem?_eq_getElem hlast]
      rfl
    · rw [hget _ hlast, hlen]
      show s + ((layerCount s e th - 1 : ℕ) : ℚ) * adjustedThickness s e th = e
      have hcast : ((layerCount s e th - 1 : ℕ) : ℚ) = (layerCount s e th : ℚ) - 1 := by
        have : 1 ≤ layerCount s e th := by omega
        push_cast [this]
        ring
      rw [hcast]
      unfold adjustedThickness
      rw [mul_div_assoc']
      rw [mul_comm, mul_div_assoc, div_self (layerCount_cast_sub_one_ne s e th), mul_one]
      ring

/-- Witness for C1 on a unit bounding box at thickness `3/10`: 4 layers,
the last of which sits exactly at the top of the box. -/
theorem C1_witness :
    (sliceModelLayers taxiDist [] (0, 0, 0) (1, 1, 1) Axis.z (3/10) 1).length =
        (max 2 ⌈(coord3 ((1 : ℚ), (1 : ℚ), (1 : ℚ)) Axis.z -
          coord3 ((0 : ℚ), (0 : ℚ), (0 : ℚ)) Axis.z) / ((3 : ℚ)/10)⌉).toNat ∧
      ∃ ll, (sliceModelLayers taxiDist [] (0, 0, 0) (1, 1, 1) Axis.z (3/10) 1).getLast? =
          some ll ∧
        ll.z = coord3 ((1 : ℚ), (1 : ℚ), (1 : ℚ)) Axis.z := by
  have h := C1_sliceModel_layer_positions taxiDist [] (0, 0, 0) (1, 1, 1) Axis.z (3/10) 1
    (by norm_num) (by norm_num [coord3])
  exact ⟨h.1, h.2.2.2⟩

/-- C8: one progress value is reported per completed layer, the `i`-th
reported value being `((i+1)/layerCount) * 100`; the sequence is
non-decreasing and the final value is exactly `100`. -/
theorem C8_progress_monotone_complete (s e th : ℚ) :
    (progressReports s e th).length = layerCount s e th ∧
      (∀ i, i < (progressReports s e th).length →
        (progressReports s e th).getD i 0 =
          (((i : ℚ) + 1) / (layerCount s e th : ℚ)) * 100) ∧
      List.Pairwise (fun a b => a ≤ b) (progressReports s e th) ∧
      (progressReports s e th).getLast? = some 100 := by
  have hn2 := two_le_layerCount s e th
  have hnq : (0 : ℚ) < (layerCount s e th : ℚ) := by
    exact_mod_cast Nat.lt_of_lt_of_le (by norm_num) hn2
  refine ⟨by simp [progressReports], ?_, ?_, ?_⟩
  · intro i hi
    have hi2 : i < layerCount s e th := by simpa [progressReports] using hi
    simp [progressReports, List.getD_eq_getElem?_getD, List.getElem?_map,
      List.getElem?_range hi2]
  · unfold progressReports
    rw [List.pairwise_map]
    refine List.Pairwise.imp ?_ (List.pairwise_lt_range _)
    intro a b hab
    have hcast : ((a : ℚ) + 1) ≤ ((b : ℚ) + 1) := by
      have : (a : ℚ) ≤ (b : ℚ) := by exact_mod_cast hab.le
      linarith
    exact mul_le_mul_of_nonneg_right ((div_le_div_right hnq).mpr hcast) (by norm_num)
  · have hlast : layerCount s e th - 1 < layerCount s e th := by omega
    have hlen : (progressReports s e th).length = layerCount s e th := by
      simp [progressReports]
    rw [List.getLast?_eq_getElem?, hlen]
    unfold progressReports
    rw [List.getElem?_map, List.getElem?_range hlast]
    have hcast : ((layerCount s e th - 1 : ℕ) : ℚ) + 1 = (layerCount s e th : ℚ) := by
      have : 1 ≤ layerCount s e th := by omega
      push_cast [this]
      ring
    rw [Option.map_some']
    rw [hcast, div_self (ne_of_gt hnq)]
    norm_num

/-- Witness for C8 at a concrete range and thickness: the third report of
a 4-layer run equals `(3/4) * 100`. -/
theorem C8_witness :
    (progressReports 0 1 (3/10)).getD 2 0 = (((2 : ℚ) + 1) / (layerCount 0 1 (3/10) : ℚ)) * 100 := by
  refine (C8_progress_monotone_complete 0 1 (3/10)).2.1 2 ?_
  have hc : ⌈((1 : ℚ) - 0) / (3/10)⌉ = (4 : ℤ) := by
    rw [Int.ceil_eq_iff]
    norm_num
  have hl : layerCount 0 1 (3/10) = 4 := by
    unfold layerCount
    rw [hc]
    decide
  simp [progressReports, hl]

/-- C9: a `sliceModel` run on a loaded model (geometry with a position
attribute and an index buffer, bounding box present) leaves every field of
the slicer state exactly as it was: the result is `ok` with the input
state returned unchanged alongside the layer list, and the mesh buffers
and bounding box are only read. -/
theorem C9_sliceModel_frame (d : Dist2) (diag : ℚ) (st : SlicerState) (ax : Axis) (th : ℚ)
    (g : Geometry) (pos : List Point3) (idx : List ℕ) (bb : Point3 × Point3)
    (hg : st.geometry = some g) (hp : g.position = some pos) (hi : g.index = some idx)
    (hb : st.boundingBox = some bb) :
    sliceModelS d diag st ax th =
      Except.ok (st, sliceModelLayers d (trianglesOf pos idx) bb.1 bb.2 ax th diag) := by
  unfold sliceModelS
  rw [hg, hb]
  simp only [hp, hi, hg]

/-- Witness for C9: a concrete loaded state passes through `sliceModelS`
unchanged. -/
theorem C9_witness :
    sliceModelS taxiDist 1
        ⟨some ⟨some [], some []⟩, some ((0, 0, 0), (1, 1, 1))⟩ Axis.z (1/2) =
      Except.ok (⟨some ⟨some [], some []⟩, some ((0, 0, 0), (1, 1, 1))⟩,
        sliceModelLayers taxiDist (trianglesOf [] []) (0, 0, 0) (1, 1, 1) Axis.z (1/2) 1) :=
  C9_sliceModel_frame taxiDist 1 _ Axis.z (1/2) ⟨some [], some []⟩ [] []
    ((0, 0, 0), (1, 1, 1)) rfl rfl rfl rfl

/-! ### The 3-raw-point case of `sliceAtPlane` (C3) -/

/-- Interpolating at parameter 0 returns the start point. -/
lemma lerp3_zero (a b : Point3) : lerp3 a b 0 = a := by
  unfold lerp3
  simp

/-- Interpolating at parameter 1 returns the end point. -/
lemma lerp3_one (a b : Point3) : lerp3 a b 1 = b := by
  unfold lerp3
  refine Prod.ext ?_ (Prod.ext ?_ ?_) <;> simp

/-- The squared distance of a point to itself vanishes. -/
lemma dSq3_self (p : Point3) : dSq3 p p = 0 := by
  unfold dSq3
  ring

/-- The dedup epsilon is positive when squared. -/
lemma edgeEps_sq_pos : 0 < edgeEps ^ 2 := by
  unfold edgeEps
  norm_num

/-- A length-3 raw list means all three `checkEdge` calls produced points,
in source order. -/
lemma rawPoints_three_split (tri : Triangle) (pos : ℚ) (ax : Axis)
    (h3 : (rawPoints tri pos ax).length = 3) :
    ∃ p1 p2 p3, checkEdge tri.1 tri.2.1 pos ax = some p1 ∧
      checkEdge tri.2.1 tri.2.2 pos ax = some p2 ∧
      checkEdge tri.2.2 tri.1 pos ax = some p3 ∧
      rawPoints tri pos ax = [p1, p2, p3] := by
  unfold rawPoints at h3 ⊢
  cases h1 : checkEdge tri.1 tri.2.1 pos ax <;>
    cases h2 : checkEdge tri.2.1 tri.2.2 pos ax <;>
      cases h3x : checkEdge tri.2.2 tri.1 pos ax <;>
        simp [h1, h2, h3x] at h3 ⊢

/-- A straddle condition is a nonpositive product of signed offsets. -/
lemma straddle_mul_nonpos {a b pos : ℚ}
    (h : (a ≤ pos ∧ pos ≤ b) ∨ (b ≤ pos ∧ pos ≤ a)) :
    (a - pos) * (b - pos) ≤ 0 := by
  rcases h with ⟨h1, h2⟩ | ⟨h1, h2⟩
  · have ha : a - pos ≤ 0 := by linarith
    have hb : 0 ≤ b - pos := by linarith
    exact mul_nonpos_of_nonpos_of_nonneg ha hb
  · have ha : 0 ≤ a - pos := by linarith
    have hb : b - pos ≤ 0 := by linarith
    exact mul_nonpos_of_nonneg_of_nonpos ha hb

/-- When three pairwise products of offsets are all nonpositive, one of
the offsets is zero: the slice plane passes exactly through a vertex. -/
lemma offsets_exists_zero {x1 x2 x3 : ℚ}
    (h12 : x1 * x2 ≤ 0) (h23 : x2 * x3 ≤ 0) (h31 : x3 * x1 ≤ 0) :
    x1 = 0 ∨ x2 = 0 ∨ x3 = 0 := by
  have hsq : (x1 * x2 * x3) ^ 2 ≤ 0 := by
    have hab : 0 ≤ x1 * x2 * (x2 * x3) := mul_nonneg_iff.mpr (Or.inr ⟨h12, h23⟩)
    nlinarith
  have h0 : x1 * x2 * x3 = 0 :=
    sq_eq_zero_iff.mp (le_antisymm hsq (sq_nonneg _))
  rcases mul_eq_zero.mp h0 with h | h
  · rcases mul_eq_zero.mp h with h | h
    · exact Or.inl h
    · exact Or.inr (Or.inl h)
  · exact Or.inr (Or.inr h)

/-- In the 3-raw-point case the list always carries an exact duplicate
pair: the offsets argument puts one vertex exactly on the plane, and the
two edges at that vertex both interpolate (with clamped parameters 0 and
1 respectively) to that very vertex. -/
lemma rawPoints_three_dup (tri : Triangle) (pos : ℚ) (ax : Axis)
    (h3 : (rawPoints tri pos ax).length = 3) :
    ∃ p1 p2 p3, rawPoints tri pos ax = [p1, p2, p3] ∧
      (p1 = p2 ∨ p1 = p3 ∨ p2 = p3) := by
  obtain ⟨p1, p2, p3, h1, h2, h3x, hlist⟩ := rawPoints_three_split tri pos ax h3
  obtain ⟨hs1, hd1, hp1⟩ := (checkEdge_eq_some_iff _ _ _ _ _).mp h1
  obtain ⟨hs2, hd2, hp2⟩ := (checkEdge_eq_some_iff _ _ _ _ _).mp h2
  obtain ⟨hs3, hd3, hp3⟩ := (checkEdge_eq_some_iff _ _ _ _ _).mp h3x
  set a1 := coord3 tri.1 ax
  set a2 := coord3 tri.2.1 ax
  set a3 := coord3 tri.2.2 ax
  have heps : (0 : ℚ) < edgeEps := by unfold edgeEps; norm_num
  have hne12 : a2 - a1 ≠ 0 := by
    intro hc
    rw [hc] at hd1
    simp at hd1
    linarith
  have hne23 : a3 - a2 ≠ 0 := by
    intro hc
    rw [hc] at hd2
    simp at hd2
    linarith
  have hne31 : a1 - a3 ≠ 0 := by
    intro hc
    rw [hc] at hd3
    simp at hd3
    linarith
  have hz := offsets_exists_zero (straddle_mul_nonpos hs1)
    (straddle_mul_nonpos hs2) (straddle_mul_nonpos hs3)
  refine ⟨p1, p2, p3, hlist, ?_⟩
  rcases hz with hz | hz | hz
  · -- the plane passes through v1: edge (v1,v2) interpolates at 0 to v1,
    -- edge (v3,v1) at clamped parameter 1 to v1
    have ht1 : clamp01 ((pos - a1) / (a2 - a1)) = 0 := by
      have hp : pos - a1 = 0 := by linarith
      rw [hp, zero_div]
      norm_num [clamp01]
    have ht3 : clamp01 ((pos - a3) / (a1 - a3)) = 1 := by
      have hp : pos - a3 = a1 - a3 := by linarith
      rw [hp, div_self hne31]
      norm_num [clamp01]
    refine Or.inr (Or.inl ?_)
    rw [hp1, hp3, ht1, ht3, lerp3_zero, lerp3_one]
  · -- the plane passes through v2
    have ht1 : clamp01 ((pos - a1) / (a2 - a1)) = 1 := by
      have hp : pos - a1 = a2 - a1 := by linarith
      rw [hp, div_self hne12]
      norm_num [clamp01]
    have ht2 : clamp01 ((pos - a2) / (a3 - a2)) = 0 := by
      have hp : pos - a2 = 0 := by linarith
      rw [hp, zero_div]
      norm_num [clamp01]
    refine Or.inl ?_
    rw [hp1, hp2, ht1, ht2, lerp3_zero, lerp3_one]
  · -- the plane passes through v3
    have ht2 : clamp01 ((pos - a2) / (a3 - a2)) = 1 := by
      have hp : pos - a2 = a3 - a2 := by linarith
      rw [hp, div_self hne23]
      norm_num [clamp01]
    have ht3 : clamp01 ((pos - a3) / (a1 - a3)) = 0 := by
      have hp : pos - a3 = 0 := by linarith
      rw [hp, zero_div]
      norm_num [clamp01]
    refine Or.inr (Or.inr ?_)
    rw [hp2, hp3, ht2, ht3, lerp3_zero, lerp3_one]

/-- Deduplicating a 3-point list that carries an exact duplicate pair
leaves at most 2 points (the duplicate is within any positive epsilon). -/
lemma dedup_three_with_dup (p1 p2 p3 : Point3) (h : p1 = p2 ∨ p1 = p3 ∨ p2 = p3) :
    (dedupPts [p1, p2, p3]).length ≤ 2 := by
  have hself : ∀ p : Point3, decide (dSq3 p p < edgeEps ^ 2) = true := by
    intro p
    rw [decide_eq_true_iff]
    rw [dSq3_self]
    exact edgeEps_sq_pos
  simp only [dedupPts, List.foldl_cons, List.foldl_nil]
  have hdup1 : dedupStep [p1] p1 = [p1] := by
    unfold dedupStep
    rw [if_pos (by simp [hself p1])]
  rcases h with h | h | h
  · subst h
    rw [hdup1]
    unfold dedupStep
    split <;> simp
  · subst h
    by_cases hd : ([p1].any fun q => decide (dSq3 p2 q < edgeEps ^ 2)) = true
    · have h1 : dedupStep [p1] p2 = [p1] := by
        unfold dedupStep
        rw [if_pos hd]
      rw [h1]
      unfold dedupStep
      split <;> simp
    · have h1 : dedupStep [p1] p2 = [p1, p2] := by
        unfold dedupStep
        rw [if_neg hd]
        rfl
      rw [h1]
      have h2 : dedupStep [p1, p2] p1 = [p1, p2] := by
        unfold dedupStep
        rw [if_pos (by simp [hself p1])]
      rw [h2]
      simp
  · subst h
    by_cases hd : ([p1].any fun q => decide (dSq3 p2 q < edgeEps ^ 2)) = true
    · have h1 : dedupStep [p1] p2 = [p1] := by
        unfold dedupStep
        rw [if_pos hd]
      rw [h1, h1]
      simp
    · have h1 : dedupStep [p1] p2 = [p1, p2] := by
        unfold dedupStep
        rw [if_neg hd]
        rfl
      rw [h1]
      have h2 : dedupStep [p1, p2] p2 = [p1, p2] := by
        unfold dedupStep
        rw [if_pos (by simp [hself p2])]
      rw [h2]
      simp

/-- C3: whenever a triangle yields 3 raw edge-intersection points (the
plane passing exactly through a vertex), the points are deduplicated with
the same epsilon, the deduplication always leaves at most 2 points (the
vertex is hit by two edges exactly), and whenever 2 unique points remain
they are emitted as the triangle's segment — the triangle is not discarded
for having produced 3 raw points. -/
theorem C3_three_point_dedup (tri : Triangle) (pos : ℚ) (ax : Axis)
    (h3 : (rawPoints tri pos ax).length = 3) :
    (dedupPts (rawPoints tri pos ax)).length ≤ 2 ∧
      ∀ q1 q2, dedupPts (rawPoints tri pos ax) = [q1, q2] →
        emitTriangle tri pos ax = some [q1, q2] := by
  constructor
  · obtain ⟨p1, p2, p3, hlist, hdup⟩ := rawPoints_three_dup tri pos ax h3
    rw [hlist]
    exact dedup_three_with_dup p1 p2 p3 hdup
  · intro q1 q2 hded
    unfold emitTriangle
    dsimp only
    rw [h3, hded]
    norm_num

/-- Witness for C3: the plane `z = 0` passes exactly through the vertex
`(0,0,0)` of a concrete triangle; 3 raw points arise, deduplicate to 2,
and the triangle is emitted, not discarded. -/
theorem C3_witness :
    (rawPoints ((0, 0, 0), (1, 2, 1), (1, 0, -1)) 0 Axis.z).length = 3 ∧
      emitTriangle ((0, 0, 0), (1, 2, 1), (1, 0, -1)) 0 Axis.z =
        some [(0, 0, 0), (1, 1, 0)] := by
  have hraw : rawPoints ((0, 0, 0), (1, 2, 1), (1, 0, -1)) 0 Axis.z =
      [(0, 0, 0), (1, 1, 0), (0, 0, 0)] := by
    norm_num [-Prod.mk_zero_zero, rawPoints, checkEdge, coord3, edgeEps, clamp01, lerp3,
      abs_of_nonneg, abs_of_nonpos]
  have h3 : (rawPoints ((0, 0, 0), (1, 2, 1), (1, 0, -1)) 0 Axis.z).length = 3 := by
    rw [hraw]
    rfl
  have hded : dedupPts (rawPoints ((0, 0, 0), (1, 2, 1), (1, 0, -1)) 0 Axis.z) =
      [(0, 0, 0), (1, 1, 0)] := by
    rw [hraw]
    norm_num [-Prod.mk_zero_zero, dedupPts, dedupStep, dSq3, edgeEps, Prod.ext_iff]
  exact ⟨h3, (C3_three_point_dedup _ 0 Axis.z h3).2 _ _ hded⟩

/-! ### Bounds correctness (C6) -/

/-- Running-minimum fold: starting from a known value, the result is the
minimum of the start and the list. -/
lemma foldl_updMin_spec (xs : List ℚ) :
    ∀ a : ℚ, ∃ m, xs.foldl updMin (some a) = some m ∧ m ≤ a ∧
      (∀ x ∈ xs, m ≤ x) ∧ (m = a ∨ m ∈ xs) := by
  induction xs with
  | nil =>
    intro a
    exact ⟨a, rfl, le_refl a, by simp, Or.inl rfl⟩
  | cons x xs ih =>
    intro a
    by_cases hlt : x < a
    · obtain ⟨m, hm, hma, hall, hmem⟩ := ih x
      refine ⟨m, ?_, by linarith, ?_, ?_⟩
      · simpa [updMin, hlt] using hm
      · intro y hy
        rcases List.mem_cons.mp hy with h | h
        · subst h
          exact hma
        · exact hall y h
      · rcases hmem with h | h
        · exact Or.inr (h ▸ List.mem_cons_self x xs)
        · exact Or.inr (List.mem_cons_of_mem x h)
    · obtain ⟨m, hm, hma, hall, hmem⟩ := ih a
      refine ⟨m, ?_, hma, ?_, ?_⟩
      · simpa [updMin, hlt] using hm
      · intro y hy
        rcases List.mem_cons.mp hy with h | h
        · subst h
          exact le_trans hma (not_lt.mp hlt)
        · exact hall y h
      · rcases hmem with h | h
        · exact Or.inl h
        · exact Or.inr (List.mem_cons_of_mem x h)

/-- Running-maximum fold: starting from a known value, the result is the
maximum of the start and the list. -/
lemma foldl_updMax_spec (xs : List ℚ) :
    ∀ a : ℚ, ∃ m, xs.foldl updMax (some a) = some m ∧ a ≤ m ∧
      (∀ x ∈ xs, x ≤ m) ∧ (m = a ∨ m ∈ xs) := by
  induction xs with
  | nil =>
    intro a
    exact ⟨a, rfl, le_refl a, by simp, Or.inl rfl⟩
  | cons x xs ih =>
    intro a
    by_cases hlt : a < x
    · obtain ⟨m, hm, hma, hall, hmem⟩ := ih x
      refine ⟨m, ?_, by linarith, ?_, ?_⟩
      · simpa [updMax, hlt] using hm
      · intro y hy
        rcases List.mem_cons.mp hy with h | h
        · subst h
          exact hma
        · exact hall y h
      · rcases hmem with h | h
        · exact Or.inr (h ▸ List.mem_cons_self x xs)
        · exact Or.inr (List.mem_cons_of_mem x h)
    · obtain ⟨m, hm, hma, hall, hmem⟩ := ih a
      refine ⟨m, ?_, hma, ?_, ?_⟩
      · simpa [updMax, hlt] using hm
      · intro y hy
        rcases List.mem_cons.mp hy with h | h
        · subst h
          exact le_trans (not_lt.mp hlt) hma
        · exact hall y h
      · rcases hmem with h | h
        · exact Or.inl h
        · exact Or.inr (List.mem_cons_of_mem x h)

/-- The 4-tuple bounds fold acts componentwise. -/
lemma boundsFold_components (pts : List Point2) :
    ∀ acc : Option ℚ × Option ℚ × Option ℚ × Option ℚ,
      pts.foldl boundsStep acc =
        (pts.foldl (fun a p => updMin a p.1) acc.1,
          pts.foldl (fun a p => updMax a p.1) acc.2.1,
          pts.foldl (fun a p => updMin a p.2) acc.2.2.1,
          pts.foldl (fun a p => updMax a p.2) acc.2.2.2) := by
  induction pts with
  | nil =>
    intro acc
    rfl
  | cons p pts ih =>
    intro acc
    rw [List.foldl_cons, ih]
    rfl

/-- A per-point coordinate fold starting at `none` on a nonempty list
equals the same fold seeded with the head's coordinate. -/
lemma foldl_coord_none (f : Option ℚ → ℚ → Option ℚ) (g : Point2 → ℚ)
    (hf : ∀ x, f none x = some x) (p : Point2) (rest : List Point2) :
    (p :: rest).foldl (fun a q => f a (g q)) none =
      rest.foldl (fun a q => f a (g q)) (some (g p)) := by
  rw [List.foldl_cons, hf]

/-- C6 part 1, distilled: on a nonempty flattened point list the four
computed bounds are attained coordinate-wise extrema; with no points the
bounds are all zero. -/
lemma computePathBounds_spec (paths : List (List Point2)) :
    (paths.flatten = [] → computePathBounds paths = ⟨0, 0, 0, 0⟩) ∧
      (∀ pt ∈ paths.flatten,
        (computePathBounds paths).minX ≤ pt.1 ∧ pt.1 ≤ (computePathBounds paths).maxX ∧
          (computePathBounds paths).minY ≤ pt.2 ∧ pt.2 ≤ (computePathBounds paths).maxY) ∧
      (paths.flatten ≠ [] →
        (∃ pt ∈ paths.flatten, pt.1 = (computePathBounds paths).minX) ∧
          (∃ pt ∈ paths.flatten, pt.1 = (computePathBounds paths).maxX) ∧
          (∃ pt ∈ paths.flatten, pt.2 = (computePathBounds paths).minY) ∧
          ∃ pt ∈ paths.flatten, pt.2 = (computePathBounds paths).maxY) := by
  have hfold : computePathBounds paths =
      match paths.flatten.foldl boundsStep (none, none, none, none) with
      | (some mnx, some mxx, some mny, some mxy) => ⟨mnx, mxx, mny, mxy⟩
      | _ => ⟨0, 0, 0, 0⟩ := by
    unfold computePathBounds
    rw [List.foldl_flatten]
  cases hpts : paths.flatten with
  | nil =>
    refine ⟨fun _ => ?_, ?_, fun hne => absurd rfl hne⟩
    · rw [hfold, hpts]
      rfl
    · intro pt hpt
      exact absurd hpt (List.not_mem_nil pt)
  | cons p rest =>
    rw [hpts] at hfold
    rw [boundsFold_components] at hfold
    simp only at hfold
    rw [foldl_coord_none updMin Prod.fst (fun x => rfl) p rest,
      foldl_coord_none updMax Prod.fst (fun x => rfl) p rest,
      foldl_coord_none updMin Prod.snd (fun x => rfl) p rest,
      foldl_coord_none updMax Prod.snd (fun x => rfl) p rest] at hfold
    obtain ⟨m1, hm1, hm1a, hm1all, hm1mem⟩ := foldl_updMin_spec (rest.map Prod.fst) p.1
    obtain ⟨m2, hm2, hm2a, hm2all, hm2mem⟩ := foldl_updMax_spec (rest.map Prod.fst) p.1
    obtain ⟨m3, hm3, hm3a, hm3all, hm3mem⟩ := foldl_updMin_spec (rest.map Prod.snd) p.2
    obtain ⟨m4, hm4, hm4a, hm4all, hm4mem⟩ := foldl_updMax_spec (rest.map Prod.snd) p.2
    have hc1 : rest.foldl (fun a q => updMin a q.1) (some p.1) = some m1 := by
      rw [List.foldl_map] at hm1
      exact hm1
    have hc2 : rest.foldl (fun a q => updMax a q.1) (some p.1) = some m2 := by
      rw [List.foldl_map] at hm2
      exact hm2
    have hc3 : rest.foldl (fun a q => updMin a q.2) (some p.2) = some m3 := by
      rw [List.foldl_map] at hm3
      exact hm3
    have hc4 : rest.foldl (fun a q => updMax a q.2) (some p.2) = some m4 := by
      rw [List.foldl_map] at hm4
      exact hm4
    rw [hc1, hc2, hc3, hc4] at hfold
    have hb : computePathBounds paths = ⟨m1, m2, m3, m4⟩ := hfold
    constructor
    · intro h
      exact absurd h (by simp)
    constructor
    · intro pt hpt
      rw [hb]
      rcases List.mem_cons.mp hpt with h | h
      · subst h
        exact ⟨hm1a, hm2a, hm3a, hm4a⟩
      · exact ⟨hm1all pt.1 (List.mem_map_of_mem Prod.fst h),
          hm2all pt.1 (List.mem_map_of_mem Prod.fst h),
          hm3all pt.2 (List.mem_map_of_mem Prod.snd h),
          hm4all pt.2 (List.mem_map_of_mem Prod.snd h)⟩
    · intro _
      rw [hb]
      have hself : p ∈ p :: rest := List.mem_cons_self p rest
      have hrest : ∀ q ∈ rest, q ∈ p :: rest := fun q hq => List.mem_cons_of_mem p hq
      refine ⟨?_, ?_, ?_, ?_⟩
      · rcases hm1mem with h | h
        · exact ⟨p, hself, h.symm⟩
        · obtain ⟨q, hq, hq1⟩ := List.mem_map.mp h
          exact ⟨q, hrest q hq, hq1⟩
      · rcases hm2mem with h | h
        · exact ⟨p, hself, h.symm⟩
        · obtain ⟨q, hq, hq1⟩ := List.mem_map.mp h
          exact ⟨q, hrest q hq, hq1⟩
      · rcases hm3mem with h | h
        · exact ⟨p, hself, h.symm⟩
        · obtain ⟨q, hq, hq1⟩ := List.mem_map.mp h
          exact ⟨q, hrest q hq, hq1⟩
      · rcases hm4mem with h | h
        · exact ⟨p, hself, h.symm⟩
        · obtain ⟨q, hq, hq1⟩ := List.mem_map.mp h
          exact ⟨q, hrest q hq, hq1⟩

/-- Every layer of a slicing run is the `mkLayer` of its index. -/
lemma mem_sliceModelLayers (d : Dist2) (tris : List Triangle) (bbMin bbMax : Point3)
    (ax : Axis) (th diag : ℚ) (L : Layer)
    (hL : L ∈ sliceModelLayers d tris bbMin bbMax ax th diag) :
    ∃ i, L = mkLayer d tris ax diag (coord3 bbMin ax)
      (adjustedThickness (coord3 bbMin ax) (coord3 bbMax ax) th) i := by
  unfold sliceModelLayers at hL
  obtain ⟨i, _, rfl⟩ := List.mem_map.mp hL
  exact ⟨i, rfl⟩

/-- C6: every layer's cached `bounds` equals `computePathBounds` of its
`paths`; `computePathBounds` computes the attained coordinate-wise extrema
of all points of all paths in one scan, with all-zero bounds when no point
exists; and a slice position at which no triangle intersects the plane
yields a layer with empty `paths` and all-zero bounds (the run is a total
function — nothing is thrown). -/
theorem C6_bounds_consistency (d : Dist2) (tris : List Triangle) (bbMin bbMax : Point3)
    (ax : Axis) (th diag : ℚ) :
    (∀ paths : List (List Point2),
      (paths.flatten = [] → computePathBounds paths = ⟨0, 0, 0, 0⟩) ∧
        (∀ pt ∈ paths.flatten,
          (computePathBounds paths).minX ≤ pt.1 ∧ pt.1 ≤ (computePathBounds paths).maxX ∧
            (computePathBounds paths).minY ≤ pt.2 ∧ pt.2 ≤ (computePathBounds paths).maxY) ∧
        (paths.flatten ≠ [] →
          (∃ pt ∈ paths.flatten, pt.1 = (computePathBounds paths).minX) ∧
            (∃ pt ∈ paths.flatten, pt.1 = (computePathBounds paths).maxX) ∧
            (∃ pt ∈ paths.flatten, pt.2 = (computePathBounds paths).minY) ∧
            ∃ pt ∈ paths.flatten, pt.2 = (computePathBounds paths).maxY)) ∧
      (∀ L ∈ sliceModelLayers d tris bbMin bbMax ax th diag,
        L.bounds = computePathBounds L.paths) ∧
      ∀ L ∈ sliceModelLayers d tris bbMin bbMax ax th diag,
        sliceAtPlane tris L.z ax = [] → L.paths = [] ∧ L.bounds = ⟨0, 0, 0, 0⟩ := by
  refine ⟨computePathBounds_spec, ?_, ?_⟩
  · intro L hL
    obtain ⟨i, rfl⟩ := mem_sliceModelLayers d tris bbMin bbMax ax th diag L hL
    rfl
  · intro L hL hsl
    obtain ⟨i, rfl⟩ := mem_sliceModelLayers d tris bbMin bbMax ax th diag L hL
    unfold mkLayer at hsl ⊢
    dsimp only at hsl ⊢
    rw [hsl]
    exact ⟨rfl, rfl⟩

/-- Witness for C6: a triangle far above the bounding box intersects no
slice plane; the first layer of the run is empty with zero bounds. -/
theorem C6_witness :
    (⟨0, 0, [], ⟨0, 0, 0, 0⟩⟩ : Layer) ∈
        sliceModelLayers taxiDist [((0, 0, 10), (1, 0, 10), (0, 1, 20))]
          (0, 0, 0) (1, 1, 1) Axis.z (1/2) 1 ∧
      ((⟨0, 0, [], ⟨0, 0, 0, 0⟩⟩ : Layer).paths = [] ∧
        (⟨0, 0, [], ⟨0, 0, 0, 0⟩⟩ : Layer).bounds = ⟨0, 0, 0, 0⟩) := by
  have hcount : layerCount 0 1 (1/2) = 2 := by
    have hc : ⌈((1 : ℚ) - 0) / (1/2)⌉ = (2 : ℤ) := by
      rw [Int.ceil_eq_iff]
      norm_num
    unfold layerCount
    rw [hc]
    decide
  have hslice : sliceAtPlane [((0, 0, 10), (1, 0, 10), (0, 1, 20))] (0 : ℚ) Axis.z = [] := by
    norm_num [-Prod.mk_zero_zero, sliceAtPlane, emitTriangle, rawPoints, checkEdge, coord3]
  have hmem : (⟨0, 0, [], ⟨0, 0, 0, 0⟩⟩ : Layer) ∈
      sliceModelLayers taxiDist [((0, 0, 10), (1, 0, 10), (0, 1, 20))]
        (0, 0, 0) (1, 1, 1) Axis.z (1/2) 1 := by
    unfold sliceModelLayers
    dsimp only
    rw [show coord3 ((0 : ℚ), (0 : ℚ), (0 : ℚ)) Axis.z = 0 from rfl,
      show coord3 ((1 : ℚ), (1 : ℚ), (1 : ℚ)) Axis.z = 1 from rfl, hcount]
    refine List.mem_map.mpr ⟨0, by norm_num, ?_⟩
    unfold mkLayer
    dsimp only
    rw [show (0 : ℚ) + ((0 : ℕ) : ℚ) * adjustedThickness 0 1 (1/2) = 0 by norm_num]
    rw [hslice]
    norm_num [-Prod.mk_zero_zero, buildPaths, computePathBounds]
  have h := (C6_bounds_consistency taxiDist [((0, 0, 10), (1, 0, 10), (0, 1, 20))]
    (0, 0, 0) (1, 1, 1) Axis.z (1/2) 1).2.2 _ hmem
    (by
      show sliceAtPlane _ (0 : ℚ) Axis.z = []
      norm_num [-Prod.mk_zero_zero, sliceAtPlane, emitTriangle, rawPoints, checkEdge, coord3])
  exact ⟨hmem, h⟩

/-! ### The minimum-points invariant of `buildPaths` (C2) -/

/-- The secondary-pass emission never shortens a path. -/
lemma secondaryEmit_length (d : Dist2) (diag : ℚ) (keyMap : List ((ℤ × ℤ) × ℕ))
    (nodes : List Node) (p : List Point2) :
    p.length ≤ (secondaryEmit d diag keyMap nodes p).length := by
  unfold secondaryEmit
  dsimp only
  split
  · exact le_refl _
  · split
    · split
      · simp
      · exact le_refl _
    · exact le_refl _

/-- The final cleanup never shortens a path. -/
lemma finalClose_length (d : Dist2) (diag : ℚ) (p : List Point2) :
    p.length ≤ (finalClose d diag p).length := by
  unfold finalClose
  dsimp only
  split
  · exact le_refl _
  · split
    · simp
    · exact le_refl _

/-- Every path accumulated by the contour pass has at least 3 points. -/
lemma contoursLoop_min_points (d : Dist2) (n : ℕ) (diag : ℚ) :
    ∀ (l : List ℕ) (nodes : List Node) (acc : List (List Point2)),
      (∀ p ∈ acc, 3 ≤ p.length) →
      ∀ p ∈ (contoursLoop d n diag l nodes acc).2, 3 ≤ p.length := by
  intro l
  induction l with
  | nil =>
    intro nodes acc hacc p hp
    simp only [contoursLoop] at hp
    exact hacc p hp
  | cons s rest ih =>
    intro nodes acc hacc p hp
    simp only [contoursLoop] at hp
    split at hp
    · exact ih _ _ hacc p hp
    · split at hp
      · exact ih _ _ hacc p hp
      · split at hp
        · rename_i hcond
          refine ih _ _ ?_ p hp
          intro q hq
          rcases List.mem_append.mp hq with h | h
          · exact hacc q h
          · rw [List.mem_singleton.mp h]
            split
            · rw [List.length_append]
              have := hcond.1
              omega
            · exact hcond.1
        · exact ih _ _ hacc p hp

/-- Every path accumulated by the secondary pass has at least 3 points. -/
lemma remLoop_min_points (d : Dist2) (diag : ℚ) (keyMap : List ((ℤ × ℤ) × ℕ)) :
    ∀ (l : List ℕ) (nodes : List Node) (acc : List (List Point2)),
      (∀ p ∈ acc, 3 ≤ p.length) →
      ∀ p ∈ (remLoop d diag keyMap l nodes acc).2, 3 ≤ p.length := by
  intro l
  induction l with
  | nil =>
    intro nodes acc hacc p hp
    simp only [remLoop] at hp
    exact hacc p hp
  | cons i rest ih =>
    intro nodes acc hacc p hp
    simp only [remLoop] at hp
    split at hp
    · exact ih _ _ hacc p hp
    · split at hp
      · rename_i hcond
        refine ih _ _ ?_ p hp
        intro q hq
        rcases List.mem_append.mp hq with h | h
        · exact hacc q h
        · rw [List.mem_singleton.mp h]
          exact le_trans hcond.1 (secondaryEmit_length _ _ _ _ _)
      · exact ih _ _ hacc p hp

/-- Every path of the two graph-trace passes has at least 3 points. -/
lemma tracedPaths_min_points (d : Dist2) (segs : List Seg) (diag : ℚ) :
    ∀ p ∈ tracedPaths d segs diag, 3 ≤ p.length := by
  intro p hp
  unfold tracedPaths at hp
  exact remLoop_min_points d diag _ _ _ _
    (contoursLoop_min_points d segs.length diag _ _ [] (by simp)) p hp

/-- Every path of the segment-pairing fallback has at least 3 points. -/
lemma fallbackPaths_min_points (d : Dist2) (segs : List Seg) (radius : ℚ) :
    ∀ p ∈ fallbackPaths d segs radius, 3 ≤ p.length := by
  unfold fallbackPaths
  suffices h : ∀ (l : List ℕ) (used : List ℕ) (acc : List (List Point2)),
      (∀ p ∈ acc, 3 ≤ p.length) →
      ∀ p ∈ fbOuter d segs radius l used acc, 3 ≤ p.length from
    h _ _ [] (by simp)
  intro l
  induction l with
  | nil =>
    intro used acc hacc p hp
    simp only [fbOuter] at hp
    exact hacc p hp
  | cons i rest ih =>
    intro used acc hacc p hp
    simp only [fbOuter] at hp
    split at hp
    · exact ih _ _ hacc p hp
    · refine ih _ _ ?_ p hp
      intro q hq
      split at hq
      · rcases List.mem_append.mp hq with h | h
        · exact hacc q h
        · rw [List.mem_singleton.mp h]
          rename_i hlen
          exact hlen
      · exact hacc q hq

/-- C2, amended: every path returned by `buildPaths` — over any input
edge list, axis and diagonal, and any point metric — has at least
3 points.  (The minimum-perimeter half of the original claim fails for
the fallback pass; see the counterexample.) -/
theorem C2_buildPaths_min_points (d : Dist2) (edges : List (List Point3)) (ax : Axis)
    (diag : ℚ) : ∀ p ∈ buildPaths d edges ax diag, 3 ≤ p.length := by
  intro p hp
  unfold buildPaths at hp
  split at hp
  · exact absurd hp (List.not_mem_nil p)
  · dsimp only at hp
    split at hp
    · exact absurd hp (List.not_mem_nil p)
    · obtain ⟨q, hq, rfl⟩ := List.mem_map.mp hp
      refine le_trans ?_ (finalClose_length d diag q)
      split at hq
      · exact fallbackPaths_min_points d _ _ q hq
      · exact tracedPaths_min_points d _ _ q hq

/-- Witness for the amended C2 at the concrete fallback run: the returned
path has exactly 3 points. -/
theorem C2_witness :
    3 ≤ ([((0 : ℚ), (0 : ℚ)), ((1 : ℚ)/2500, (0 : ℚ)), ((0 : ℚ), (0 : ℚ))] : List Point2).length :=
  C2_buildPaths_min_points taxiDist
    [[(0, 0, 0), (1/2500, 0, 0)], [(0, 0, 0), (1/2500, 0, 0)]] Axis.z 1 _
    (by rw [c2x_buildPaths]; exact List.mem_singleton.mpr rfl)

/-- Counterexample to C2 as stated: on the concrete duplicated-short-edge
input (all points on the row `y = 0`, where the instantiated taxicab
metric is exactly the Euclidean distance), `buildPaths` returns a path
whose total perimeter `1/1250` does NOT exceed the minimum viable path
length `MIN_PATH_LENGTH = 1/1000` — the segment-pairing fallback applies
no perimeter check. -/
theorem C2_counterexample :
    [((0 : ℚ), (0 : ℚ)), ((1 : ℚ)/2500, (0 : ℚ)), ((0 : ℚ), (0 : ℚ))] ∈
        buildPaths taxiDist [[(0, 0, 0), (1/2500, 0, 0)], [(0, 0, 0), (1/2500, 0, 0)]] Axis.z 1 ∧
      pathPerim taxiDist [((0 : ℚ), (0 : ℚ)), ((1 : ℚ)/2500, (0 : ℚ)), ((0 : ℚ), (0 : ℚ))] ≤
        minPathLength 1 := by
  constructor
  · rw [c2x_buildPaths]
    exact List.mem_singleton.mpr rfl
  · norm_num [-Prod.mk_zero_zero, pathPerim, taxiDist, minPathLength, safeDiag,
      abs_of_nonneg, abs_of_nonpos]

/-! ### Closure behavior (C7) -/

/-- The point-merge tolerance is positive for every diagonal. -/
lemma tolerance_pos (diag : ℚ) : 0 < tolerance diag := by
  unfold tolerance safeDiag
  have h : (1 / 10 ^ 10 : ℚ) ≤ max diag (1 / 10 ^ 10) := le_max_right _ _
  nlinarith

/-- C7: the final cleanup appends a duplicate of the first point exactly
for a ≥3-point path whose endpoint gap is positive and within the merge
tolerance; a path whose gap exceeds the tolerance is returned untouched
and open (first ≠ last); and in the secondary pass a path whose endpoints
are at least the tolerance apart and whose endpoint nodes are not directly
graph-connected is emitted as-is — no closing edge is ever synthesized. -/
theorem C7_cosmetic_closure (d : Dist2) (diag : ℚ) (hd : ∀ p : Point2, d p p = 0) :
    (∀ p : List Point2, 3 ≤ p.length →
      0 < d (p.headD (0, 0)) (p.getLastD (0, 0)) →
      d (p.headD (0, 0)) (p.getLastD (0, 0)) ≤ tolerance diag →
      finalClose d diag p = p ++ [p.headD (0, 0)]) ∧
      (∀ p : List Point2, 3 ≤ p.length →
        tolerance diag < d (p.headD (0, 0)) (p.getLastD (0, 0)) →
        finalClose d diag p = p ∧ p.headD (0, 0) ≠ p.getLastD (0, 0)) ∧
      ∀ (keyMap : List ((ℤ × ℤ) × ℕ)) (nodes : List Node) (p : List Point2),
        tolerance diag ≤ d (p.headD (0, 0)) (p.getLastD (0, 0)) →
        (∀ si ei,
          lookupKey keyMap (pointKey (tolerance diag) (p.headD (0, 0))) = some si →
          lookupKey keyMap (pointKey (tolerance diag) (p.getLastD (0, 0))) = some ei →
          ei ∉ connsOf nodes si) →
        secondaryEmit d diag keyMap nodes p = p := by
  refine ⟨?_, ?_, ?_⟩
  · intro p hlen hpos htol
    unfold finalClose
    rw [if_neg (by omega)]
    dsimp only
    rw [if_pos ⟨hpos, htol⟩]
  · intro p hlen htol
    constructor
    · unfold finalClose
      rw [if_neg (by omega)]
      dsimp only
      rw [if_neg (by
        intro ⟨_, hle⟩
        exact absurd htol (not_lt.mpr hle))]
    · intro heq
      rw [heq, hd] at htol
      exact absurd (tolerance_pos diag) (not_lt.mpr (le_of_lt htol))
  · intro keyMap nodes p hge hconn
    unfold secondaryEmit
    dsimp only
    rw [if_neg (not_lt.mpr hge)]
    split
    · rename_i si ei hsi hei
      rw [if_neg (hconn si ei hsi hei)]
    · rfl

/-- Witness for C7: a concrete 3-point path whose endpoint gap `1/200000`
is positive and within the merge tolerance `1/100000` is explicitly
closed by the final pass. -/
theorem C7_witness :
    finalClose taxiDist 1 [((0 : ℚ), (0 : ℚ)), (1, 0), (1/200000, 0)] =
      [((0 : ℚ), (0 : ℚ)), (1, 0), (1/200000, 0)] ++ [((0 : ℚ), (0 : ℚ))] := by
  refine (C7_cosmetic_closure taxiDist 1 (fun p => by simp [taxiDist])).1
    [((0 : ℚ), (0 : ℚ)), (1, 0), (1/200000, 0)] (by norm_num) ?_ ?_
  · norm_num [-Prod.mk_zero_zero, taxiDist, abs_of_nonneg, abs_of_nonpos]
  · norm_num [-Prod.mk_zero_zero, taxiDist, tolerance, safeDiag, abs_of_nonneg, abs_of_nonpos]

/-! ### The fallback never bridges separated groups (C5) -/

/-- The point is an endpoint of a segment assigned to group `b`. -/
def inGroup (segs : List Seg) (g : ℕ → Bool) (b : Bool) (pt : Point2) : Prop :=
  ∃ i e, i < segs.length ∧ g i = b ∧ pt = segEndpoint segs i e

/-- The head with a default is a member of a nonempty list. -/
lemma mem_headD {α : Type} [Inhabited α] (l : List α) (x : α) (h : l ≠ []) :
    l.headD x ∈ l := by
  cases l with
  | nil => exact absurd rfl h
  | cons a l => exact List.mem_cons_self a l

/-- The last element with a default is a member of a nonempty list. -/
lemma mem_getLastD {α : Type} (l : List α) (x : α) (h : l ≠ []) : l.getLastD x ∈ l := by
  induction l generalizing x with
  | nil => exact absurd rfl h
  | cons a l ih =>
    cases l with
    | nil => exact List.mem_cons_self a []
    | cons b t =>
      rw [List.getLastD_cons]
      exact List.mem_cons_of_mem a (ih x (by simp))

/-- A successful `findClosestSegment` hit names an in-range segment whose
matched endpoint lies strictly within the search radius of the query
point. -/
lemma findClosestSegment_spec (d : Dist2) (segs : List Seg) (radius : ℚ) (pt : Point2)
    (excl : List ℕ) (i : ℕ) (e : Bool)
    (h : findClosestSegment d segs radius pt excl = some (i, e)) :
    i < segs.length ∧ d pt (segEndpoint segs i e) < radius := by
  unfold findClosestSegment at h
  suffices hinv : ∀ (l : List ℕ), (∀ x ∈ l, x < segs.length) →
      ∀ acc : ℚ × Option (ℕ × Bool), acc.1 ≤ radius →
      (∀ j f, acc.2 = some (j, f) → j < segs.length ∧ d pt (segEndpoint segs j f) < radius) →
      ∀ j f,
        (l.foldl (fun acc i =>
          if i ∈ excl then acc
          else
            [false, true].foldl (fun acc e =>
              if d pt (segEndpoint segs i e) < acc.1 then
                (d pt (segEndpoint segs i e), some (i, e)) else acc) acc) acc).2 = some (j, f) →
        j < segs.length ∧ d pt (segEndpoint segs j f) < radius by
    exact hinv (List.range segs.length) (fun x hx => List.mem_range.mp hx)
      (radius, none) (le_refl radius) (by simp) i e h
  intro l
  induction l with
  | nil =>
    intro _ acc _ hacc j f hj
    exact hacc j f hj
  | cons x rest ih =>
    intro hl acc hacc1 hacc2 j f hj
    rw [List.foldl_cons] at hj
    have hx : x < segs.length := hl x (List.mem_cons_self x rest)
    have hrest : ∀ y ∈ rest, y < segs.length := fun y hy => hl y (List.mem_cons_of_mem x hy)
    by_cases hex : x ∈ excl
    · rw [if_pos hex] at hj
      exact ih hrest acc hacc1 hacc2 j f hj
    · rw [if_neg hex] at hj
      simp only [List.foldl_cons, List.foldl_nil] at hj
      set acc1 := if d pt (segEndpoint segs x false) < acc.1 then
        (d pt (segEndpoint segs x false), some (x, false)) else acc with hacc1def
      have ha1 : acc1.1 ≤ radius ∧
          ∀ j f, acc1.2 = some (j, f) → j < segs.length ∧
            d pt (segEndpoint segs j f) < radius := by
        rw [hacc1def]
        split
        · rename_i hlt
          refine ⟨le_of_lt (lt_of_lt_of_le hlt hacc1), ?_⟩
          intro j f hjf
          simp only [Option.some_inj] at hjf
          obtain ⟨rfl, rfl⟩ := Prod.mk.injEq _ _ _ _ ▸ hjf
          exact ⟨hx, lt_of_lt_of_le hlt hacc1⟩
        · exact ⟨hacc1, hacc2⟩
      set acc2 := if d pt (segEndpoint segs x true) < acc1.1 then
        (d pt (segEndpoint segs x true), some (x, true)) else acc1 with hacc2def
      have ha2 : acc2.1 ≤ radius ∧
          ∀ j f, acc2.2 = some (j, f) → j < segs.length ∧
            d pt (segEndpoint segs j f) < radius := by
        rw [hacc2def]
        split
        · rename_i hlt
          refine ⟨le_of_lt (lt_of_lt_of_le hlt ha1.1), ?_⟩
          intro j f hjf
          simp only [Option.some_inj] at hjf
          obtain ⟨rfl, rfl⟩ := Prod.mk.injEq _ _ _ _ ▸ hjf
          exact ⟨hx, lt_of_lt_of_le hlt ha1.1⟩
        · exact ha1
      exact ih hrest acc2 ha2.1 ha2.2 j f hj

/-- Separation hypothesis: endpoints of segments in different groups are
at least the fallback radius apart (in either argument order). -/
def separated (d : Dist2) (segs : List Seg) (g : ℕ → Bool) (radius : ℚ) : Prop :=
  ∀ i j, i < segs.length → j < segs.length → g i ≠ g j →
    ∀ ei ej : Bool, radius ≤ d (segEndpoint segs i ei) (segEndpoint segs j ej)

/-- Forward chaining keeps every point of the path in the seed's group:
a segment can only be matched strictly within the radius of the current
tail, and the tail is an endpoint of a segment already in the group. -/
lemma fbForward_inGroup (d : Dist2) (segs : List Seg) (radius : ℚ) (g : ℕ → Bool)
    (hsep : separated d segs g radius) (b : Bool) :
    ∀ (fuel : ℕ) (used : List ℕ) (path : List Point2), path ≠ [] →
      (∀ pt ∈ path, inGroup segs g b pt) →
      (fbForward d segs radius fuel used path).2 ≠ [] ∧
        ∀ pt ∈ (fbForward d segs radius fuel used path).2, inGroup segs g b pt := by
  intro fuel
  induction fuel with
  | zero =>
    intro used path hne hall
    exact ⟨hne, hall⟩
  | succ fuel ih =>
    intro used path hne hall
    rw [fbForward]
    cases hfc : findClosestSegment d segs radius (path.getLastD (0, 0)) used with
    | none => exact ⟨hne, hall⟩
    | some m =>
      obtain ⟨i, e⟩ := m
      obtain ⟨hi, hdist⟩ := findClosestSegment_spec d segs radius _ used i e hfc
      obtain ⟨i0, e0, hi0, hg0, heq0⟩ := hall _ (mem_getLastD path (0, 0) hne)
      have hgi : g i = b := by
        by_contra hgi
        have := hsep i0 i hi0 hi (by rw [hg0]; exact fun hc => hgi hc.symm) e0 e
        rw [← heq0] at this
        exact absurd hdist (not_lt.mpr this)
      refine ih (used ++ [i]) (path ++ [segEndpoint segs i (!e)]) (by simp) ?_
      intro pt hpt
      rcases List.mem_append.mp hpt with h | h
      · exact hall pt h
      · rw [List.mem_singleton.mp h]
        exact ⟨i, !e, hi, hgi, rfl⟩

/-- Backward chaining keeps every point of the path in the seed's group. -/
lemma fbBackward_inGroup (d : Dist2) (segs : List Seg) (radius : ℚ) (g : ℕ → Bool)
    (hsep : separated d segs g radius) (b : Bool) :
    ∀ (fuel : ℕ) (used : List ℕ) (path : List Point2), path ≠ [] →
      (∀ pt ∈ path, inGroup segs g b pt) →
      (fbBackward d segs radius fuel used path).2 ≠ [] ∧
        ∀ pt ∈ (fbBackward d segs radius fuel used path).2, inGroup segs g b pt := by
  intro fuel
  induction fuel with
  | zero =>
    intro used path hne hall
    exact ⟨hne, hall⟩
  | succ fuel ih =>
    intro used path hne hall
    rw [fbBackward]
    cases hfc : findClosestSegment d segs radius (path.headD (0, 0)) used with
    | none => exact ⟨hne, hall⟩
    | some m =>
      obtain ⟨i, e⟩ := m
      obtain ⟨hi, hdist⟩ := findClosestSegment_spec d segs radius _ used i e hfc
      obtain ⟨i0, e0, hi0, hg0, heq0⟩ := hall _ (mem_headD path (0, 0) hne)
      have hgi : g i = b := by
        by_contra hgi
        have := hsep i0 i hi0 hi (by rw [hg0]; exact fun hc => hgi hc.symm) e0 e
        rw [← heq0] at this
        exact absurd hdist (not_lt.mpr this)
      refine ih (used ++ [i]) (segEndpoint segs i (!e) :: path) (by simp) ?_
      intro pt hpt
      rcases List.mem_cons.mp hpt with h | h
      · rw [h]
        exact ⟨i, !e, hi, hgi, rfl⟩
      · exact hall pt h

/-- Every path emitted by the fallback outer loop draws all its points
from one group. -/
lemma fbOuter_inGroup (d : Dist2) (segs : List Seg) (radius : ℚ) (g : ℕ → Bool)
    (hsep : separated d segs g radius) :
    ∀ (l : List ℕ), (∀ x ∈ l, x < segs.length) →
      ∀ (used : List ℕ) (acc : List (List Point2)),
      (∀ p ∈ acc, ∃ b, ∀ pt ∈ p, inGroup segs g b pt) →
      ∀ p ∈ fbOuter d segs radius l used acc, ∃ b, ∀ pt ∈ p, inGroup segs g b pt := by
  intro l
  induction l with
  | nil =>
    intro _ used acc hacc p hp
    simp only [fbOuter] at hp
    exact hacc p hp
  | cons i rest ih =>
    intro hl used acc hacc p hp
    have hi : i < segs.length := hl i (List.mem_cons_self i rest)
    have hrest : ∀ y ∈ rest, y < segs.length := fun y hy => hl y (List.mem_cons_of_mem i hy)
    simp only [fbOuter] at hp
    split at hp
    · exact ih hrest _ _ hacc p hp
    · have hseed : ∀ pt ∈ [(segs.getD i ((0, 0), (0, 0))).1, (segs.getD i ((0, 0), (0, 0))).2],
          inGroup segs g (g i) pt := by
        intro pt hpt
        rcases List.mem_cons.mp hpt with h | h
        · exact ⟨i, false, hi, rfl, by rw [h]; rfl⟩
        · rw [List.mem_singleton.mp h]
          exact ⟨i, true, hi, rfl, rfl⟩
      have hf := fbForward_inGroup d segs radius g hsep (g i) (segs.length + 1)
        (used ++ [i]) [(segs.getD i ((0, 0), (0, 0))).1, (segs.getD i ((0, 0), (0, 0))).2]
        (by simp) hseed
      have hb := fbBackward_inGroup d segs radius g hsep (g i) (segs.length + 1)
        (fbForward d segs radius (segs.length + 1) (used ++ [i])
          [(segs.getD i ((0, 0), (0, 0))).1, (segs.getD i ((0, 0), (0, 0))).2]).1
        (fbForward d segs radius (segs.length + 1) (used ++ [i])
          [(segs.getD i ((0, 0), (0, 0))).1, (segs.getD i ((0, 0), (0, 0))).2]).2
        hf.1 hf.2
      refine ih hrest _ _ ?_ p hp
      intro q hq
      split at hq
      · rcases List.mem_append.mp hq with h | h
        · exact hacc q h
        · rw [List.mem_singleton.mp h]
          exact ⟨g i, hb.2⟩
      · exact hacc q hq

/-- Every point of a cleaned-up path is a point of the original path. -/
lemma finalClose_mem_subset (d : Dist2) (diag : ℚ) (q : List Point2) (pt : Point2)
    (h : pt ∈ finalClose d diag q) : pt ∈ q := by
  unfold finalClose at h
  dsimp only at h
  split at h
  · exact h
  · split at h
    · rcases List.mem_append.mp h with h1 | h1
      · exact h1
      · rw [List.mem_singleton.mp h1]
        refine mem_headD q (0, 0) ?_
        rename_i hlen _
        intro hc
        rw [hc] at hlen
        simp at hlen
    · exact h

/-- C5: when the graph-trace passes produce zero paths and the two groups
of segments are separated by at least the fallback radius, every path
`buildPaths` returns draws all its points from the endpoints of a single
group — disconnected components are emitted as separate paths, never
merged. -/
theorem C5_fallback_separation (d : Dist2) (edges : List (List Point3)) (ax : Axis)
    (diag : ℚ) (g : ℕ → Bool)
    (hzero : tracedPaths d (segmentsOf d edges ax diag) diag = [])
    (hsep : separated d (segmentsOf d edges ax diag) g (fallbackRadius diag)) :
    ∀ p ∈ buildPaths d edges ax diag, ∃ b : Bool, ∀ pt ∈ p,
      inGroup (segmentsOf d edges ax diag) g b pt := by
  intro p hp
  unfold buildPaths at hp
  split at hp
  · exact absurd hp (List.not_mem_nil p)
  · dsimp only at hp
    split at hp
    · exact absurd hp (List.not_mem_nil p)
    · rw [if_pos hzero] at hp
      obtain ⟨q, hq, rfl⟩ := List.mem_map.mp hp
      obtain ⟨b, hall⟩ := fbOuter_inGroup d _ _ g hsep (List.range _)
        (fun x hx => List.mem_range.mp hx) [] [] (by simp) q hq
      exact ⟨b, fun pt hpt => hall pt (finalClose_mem_subset d diag q pt hpt)⟩

/-! ### A concrete two-component fallback run (witness material for C5)

Two far-apart pairs of duplicated short edges on the row `y = 0`:
endpoints `(0,0)`, `(1/2500,0)` (group of segments 0 and 1) and `(1/2,0)`,
`(1251/2500,0)` (group of segments 2 and 3).  The graph passes reject all
traces and the fallback emits one path per component. -/

lemma c5w_segments :
    segmentsOf taxiDist
        [[(0, 0, 0), (1/2500, 0, 0)], [(0, 0, 0), (1/2500, 0, 0)],
          [(1/2, 0, 0), (1251/2500, 0, 0)], [(1/2, 0, 0), (1251/2500, 0, 0)]] Axis.z 1 =
      [((0, 0), (1/2500, 0)), ((0, 0), (1/2500, 0)),
        ((1/2, 0), (1251/2500, 0)), ((1/2, 0), (1251/2500, 0))] := by
  norm_num [-Prod.mk_zero_zero, segmentsOf, convertTo2D, toJPoint, zeroLenTol, safeDiag,
    taxiDist, abs_of_nonneg, abs_of_nonpos, List.filterMap_cons]

lemma c5w_graph :
    buildGraph (tolerance 1)
        [((0, 0), (1/2500, 0)), ((0, 0), (1/2500, 0)),
          ((1/2, 0), (1251/2500, 0)), ((1/2, 0), (1251/2500, 0))] =
      ⟨[⟨(0, 0), [1], false⟩, ⟨(1/2500, 0), [0], false⟩,
          ⟨(1/2, 0), [3], false⟩, ⟨(1251/2500, 0), [2], false⟩],
        [((0, 0), 0), ((40, 0), 1), ((50000, 0), 2), ((50040, 0), 3)]⟩ := by
  norm_num [-Prod.mk_zero_zero, buildGraph, addSegment, getNodeIndex, lookupKey,
    pointKey, jround, tolerance, safeDiag, addConn, modifyNode, Prod.ext_iff]

lemma c5w_order :
    startOrder [⟨(0, 0), [1], false⟩, ⟨(1/2500, 0), [0], false⟩,
        ⟨(1/2, 0), [3], false⟩, ⟨(1251/2500, 0), [2], false⟩] = [0, 1, 2, 3] := by
  norm_num [-Prod.mk_zero_zero, startOrder, sortByLe, insertOrd, startLe, degRank, connsOf,
    dNode, List.range, List.range.loop]

lemma c5w_trace0 :
    traceFrom taxiDist 4 [⟨(0, 0), [1], false⟩, ⟨(1/2500, 0), [0], false⟩,
        ⟨(1/2, 0), [3], false⟩, ⟨(1251/2500, 0), [2], false⟩] 0 =
      ⟨[⟨(0, 0), [1], true⟩, ⟨(1/2500, 0), [0], true⟩,
          ⟨(1/2, 0), [3], false⟩, ⟨(1251/2500, 0), [2], false⟩],
        [(0, 0), (1/2500, 0)], [0, 1], true, 1/1250⟩ := by
  norm_num [-Prod.mk_zero_zero, traceFrom, traceLoop, chooseBest, posOf, connsOf, markUsed,
    modifyNode, dNode, taxiDist, dir2, angleLt, dot2, normSq2, abs_of_nonneg, abs_of_nonpos,
    List.filter_cons]

lemma c5w_trace1 :
    traceFrom taxiDist 4 [⟨(0, 0), [1], false⟩, ⟨(1/2500, 0), [0], false⟩,
        ⟨(1/2, 0), [3], false⟩, ⟨(1251/2500, 0), [2], false⟩] 1 =
      ⟨[⟨(0, 0), [1], true⟩, ⟨(1/2500, 0), [0], true⟩,
          ⟨(1/2, 0), [3], false⟩, ⟨(1251/2500, 0), [2], false⟩],
        [(1/2500, 0), (0, 0)], [1, 0], true, 1/1250⟩ := by
  norm_num [-Prod.mk_zero_zero, traceFrom, traceLoop, chooseBest, posOf, connsOf, markUsed,
    modifyNode, dNode, taxiDist, dir2, angleLt, dot2, normSq2, abs_of_nonneg, abs_of_nonpos,
    List.filter_cons]

lemma c5w_trace2 :
    traceFrom taxiDist 4 [⟨(0, 0), [1], false⟩, ⟨(1/2500, 0), [0], false⟩,
        ⟨(1/2, 0), [3], false⟩, ⟨(1251/2500, 0), [2], false⟩] 2 =
      ⟨[⟨(0, 0), [1], false⟩, ⟨(1/2500, 0), [0], false⟩,
          ⟨(1/2, 0), [3], true⟩, ⟨(1251/2500, 0), [2], true⟩],
        [(1/2, 0), (1251/2500, 0)], [2, 3], true, 1/1250⟩ := by
  norm_num [-Prod.mk_zero_zero, traceFrom, traceLoop, chooseBest, posOf, connsOf, markUsed,
    modifyNode, dNode, taxiDist, dir2, angleLt, dot2, normSq2, abs_of_nonneg, abs_of_nonpos,
    List.filter_cons]

lemma c5w_trace3 :
    traceFrom taxiDist 4 [⟨(0, 0), [1], false⟩, ⟨(1/2500, 0), [0], false⟩,
        ⟨(1/2, 0), [3], false⟩, ⟨(1251/2500, 0), [2], false⟩] 3 =
      ⟨[⟨(0, 0), [1], false⟩, ⟨(1/2500, 0), [0], false⟩,
          ⟨(1/2, 0), [3], true⟩, ⟨(1251/2500, 0), [2], true⟩],
        [(1251/2500, 0), (1/2, 0)], [3, 2], true, 1/1250⟩ := by
  norm_num [-Prod.mk_zero_zero, traceFrom, traceLoop, chooseBest, posOf, connsOf, markUsed,
    modifyNode, dNode, taxiDist, dir2, angleLt, dot2, normSq2, abs_of_nonneg, abs_of_nonpos,
    List.filter_cons]

set_option maxHeartbeats 1000000 in
lemma c5w_contours :
    contoursLoop taxiDist 4 1 [0, 1, 2, 3]
        [⟨(0, 0), [1], false⟩, ⟨(1/2500, 0), [0], false⟩,
          ⟨(1/2, 0), [3], false⟩, ⟨(1251/2500, 0), [2], false⟩] [] =
      ([⟨(0, 0), [1], false⟩, ⟨(1/2500, 0), [0], false⟩,
          ⟨(1/2, 0), [3], false⟩, ⟨(1251/2500, 0), [2], false⟩], []) := by
  norm_num [-Prod.mk_zero_zero, contoursLoop, connsOf, dNode, c5w_trace0, c5w_trace1,
    c5w_trace2, c5w_trace3, unmarkAll, modifyNode, minPathLength, tolerance, safeDiag]

lemma c5w_fbn00 :
    findBestNextNode [⟨(0, 0), [1], false⟩, ⟨(1/2500, 0), [0], false⟩,
        ⟨(1/2, 0), [3], false⟩, ⟨(1251/2500, 0), [2], false⟩] 0 [0] = some 1 := by
  norm_num [-Prod.mk_zero_zero, findBestNextNode, connsOf, dNode]

lemma c5w_fbn101 :
    findBestNextNode [⟨(0, 0), [1], false⟩, ⟨(1/2500, 0), [0], false⟩,
        ⟨(1/2, 0), [3], false⟩, ⟨(1251/2500, 0), [2], false⟩] 1 [0, 1] = none := by
  norm_num [-Prod.mk_zero_zero, findBestNextNode, connsOf, dNode]

lemma c5w_fbn11 :
    findBestNextNode [⟨(0, 0), [1], false⟩, ⟨(1/2500, 0), [0], false⟩,
        ⟨(1/2, 0), [3], false⟩, ⟨(1251/2500, 0), [2], false⟩] 1 [1] = some 0 := by
  norm_num [-Prod.mk_zero_zero, findBestNextNode, connsOf, dNode]

lemma c5w_fbn010 :
    findBestNextNode [⟨(0, 0), [1], false⟩, ⟨(1/2500, 0), [0], false⟩,
        ⟨(1/2, 0), [3], false⟩, ⟨(1251/2500, 0), [2], false⟩] 0 [1, 0] = none := by
  norm_num [-Prod.mk_zero_zero, findBestNextNode, connsOf, dNode]

lemma c5w_fbn22 :
    findBestNextNode [⟨(0, 0), [1], false⟩, ⟨(1/2500, 0), [0], false⟩,
        ⟨(1/2, 0), [3], false⟩, ⟨(1251/2500, 0), [2], false⟩] 2 [2] = some 3 := by
  norm_num [-Prod.mk_zero_zero, findBestNextNode, connsOf, dNode]

lemma c5w_fbn323 :
    findBestNextNode [⟨(0, 0), [1], false⟩, ⟨(1/2500, 0), [0], false⟩,
        ⟨(1/2, 0), [3], false⟩, ⟨(1251/2500, 0), [2], false⟩] 3 [2, 3] = none := by
  norm_num [-Prod.mk_zero_zero, findBestNextNode, connsOf, dNode]

lemma c5w_fbn33 :
    findBestNextNode [⟨(0, 0), [1], false⟩, ⟨(1/2500, 0), [0], false⟩,
        ⟨(1/2, 0), [3], false⟩, ⟨(1251/2500, 0), [2], false⟩] 3 [3] = some 2 := by
  norm_num [-Prod.mk_zero_zero, findBestNextNode, connsOf, dNode]

lemma c5w_fbn232 :
    findBestNextNode [⟨(0, 0), [1], false⟩, ⟨(1/2500, 0), [0], false⟩,
        ⟨(1/2, 0), [3], false⟩, ⟨(1251/2500, 0), [2], false⟩] 2 [3, 2] = none := by
  norm_num [-Prod.mk_zero_zero, findBestNextNode, connsOf, dNode]

lemma c5w_ef0 :
    extForward taxiDist [⟨(0, 0), [1], false⟩, ⟨(1/2500, 0), [0], false⟩,
        ⟨(1/2, 0), [3], false⟩, ⟨(1251/2500, 0), [2], false⟩] 5 [0] [(0, 0)] 0 0 =
      ([0, 1], [(0, 0), (1/2500, 0)], 1/2500) := by
  norm_num [-Prod.mk_zero_zero, extForward, c5w_fbn00, c5w_fbn101, posOf, dNode,
    taxiDist, abs_of_nonneg, abs_of_nonpos]

lemma c5w_eb0 :
    extBackward taxiDist [⟨(0, 0), [1], false⟩, ⟨(1/2500, 0), [0], false⟩,
        ⟨(1/2, 0), [3], false⟩, ⟨(1251/2500, 0), [2], false⟩] 5 [0] [] 0 (1/2500) =
      ([0, 1], [(1/2500, 0)], 1/1250) := by
  norm_num [-Prod.mk_zero_zero, extBackward, c5w_fbn00, c5w_fbn101, posOf, dNode,
    taxiDist, abs_of_nonneg, abs_of_nonpos]

lemma c5w_ef1 :
    extForward taxiDist [⟨(0, 0), [1], false⟩, ⟨(1/2500, 0), [0], false⟩,
        ⟨(1/2, 0), [3], false⟩, ⟨(1251/2500, 0), [2], false⟩] 5 [1] [(1/2500, 0)] 1 0 =
      ([1, 0], [(1/2500, 0), (0, 0)], 1/2500) := by
  norm_num [-Prod.mk_zero_zero, extForward, c5w_fbn11, c5w_fbn010, posOf, dNode,
    taxiDist, abs_of_nonneg, abs_of_nonpos]

lemma c5w_eb1 :
    extBackward taxiDist [⟨(0, 0), [1], false⟩, ⟨(1/2500, 0), [0], false⟩,
        ⟨(1/2, 0), [3], false⟩, ⟨(1251/2500, 0), [2], false⟩] 5 [1] [] 1 (1/2500) =
      ([1, 0], [(0, 0)], 1/1250) := by
  norm_num [-Prod.mk_zero_zero, extBackward, c5w_fbn11, c5w_fbn010, posOf, dNode,
    taxiDist, abs_of_nonneg, abs_of_nonpos]

lemma c5w_ef2 :
    extForward taxiDist [⟨(0, 0), [1], false⟩, ⟨(1/2500, 0), [0], false⟩,
        ⟨(1/2, 0), [3], false⟩, ⟨(1251/2500, 0), [2], false⟩] 5 [2] [(1/2, 0)] 2 0 =
      ([2, 3], [(1/2, 0), (1251/2500, 0)], 1/2500) := by
  norm_num [-Prod.mk_zero_zero, extForward, c5w_fbn22, c5w_fbn323, posOf, dNode,
    taxiDist, abs_of_nonneg, abs_of_nonpos]

lemma c5w_eb2 :
    extBackward taxiDist [⟨(0, 0), [1], false⟩, ⟨(1/2500, 0), [0], false⟩,
        ⟨(1/2, 0), [3], false⟩, ⟨(1251/2500, 0), [2], false⟩] 5 [2] [] 2 (1/2500) =
      ([2, 3], [(1251/2500, 0)], 1/1250) := by
  norm_num [-Prod.mk_zero_zero, extBackward, c5w_fbn22, c5w_fbn323, posOf, dNode,
    taxiDist, abs_of_nonneg, abs_of_nonpos]

lemma c5w_ef3 :
    extForward taxiDist [⟨(0, 0), [1], false⟩, ⟨(1/2500, 0), [0], false⟩,
        ⟨(1/2, 0), [3], false⟩, ⟨(1251/2500, 0), [2], false⟩] 5 [3] [(1251/2500, 0)] 3 0 =
      ([3, 2], [(1251/2500, 0), (1/2, 0)], 1/2500) := by
  norm_num [-Prod.mk_zero_zero, extForward, c5w_fbn33, c5w_fbn232, posOf, dNode,
    taxiDist, abs_of_nonneg, abs_of_nonpos]

lemma c5w_eb3 :
    extBackward taxiDist [⟨(0, 0), [1], false⟩, ⟨(1/2500, 0), [0], false⟩,
        ⟨(1/2, 0), [3], false⟩, ⟨(1251/2500, 0), [2], false⟩] 5 [3] [] 3 (1/2500) =
      ([3, 2], [(1/2, 0)], 1/1250) := by
  norm_num [-Prod.mk_zero_zero, extBackward, c5w_fbn33, c5w_fbn232, posOf, dNode,
    taxiDist, abs_of_nonneg, abs_of_nonpos]

lemma c5w_rem :
    remLoop taxiDist 1 [((0, 0), 0), ((40, 0), 1), ((50000, 0), 2), ((50040, 0), 3)]
        [0, 1, 2, 3]
        [⟨(0, 0), [1], false⟩, ⟨(1/2500, 0), [0], false⟩,
          ⟨(1/2, 0), [3], false⟩, ⟨(1251/2500, 0), [2], false⟩] [] =
      ([⟨(0, 0), [1], false⟩, ⟨(1/2500, 0), [0], false⟩,
          ⟨(1/2, 0), [3], false⟩, ⟨(1251/2500, 0), [2], false⟩], []) := by
  norm_num [-Prod.mk_zero_zero, remLoop, c5w_ef0, c5w_eb0, c5w_ef1, c5w_eb1, c5w_ef2,
    c5w_eb2, c5w_ef3, c5w_eb3, posOf, minPathLength, safeDiag, dNode]

lemma c5w_traced :
    tracedPaths taxiDist
        [((0, 0), (1/2500, 0)), ((0, 0), (1/2500, 0)),
          ((1/2, 0), (1251/2500, 0)), ((1/2, 0), (1251/2500, 0))] 1 = [] := by
  norm_num [-Prod.mk_zero_zero, tracedPaths, c5w_graph, c5w_order, c5w_contours, c5w_rem,
    List.range, List.range.loop]

lemma c5w_fcsB :
    findClosestSegment taxiDist
        [((0, 0), (1/2500, 0)), ((0, 0), (1/2500, 0)),
          ((1/2, 0), (1251/2500, 0)), ((1/2, 0), (1251/2500, 0))]
        (fallbackRadius 1) (1/2500, 0) [0] = some (1, true) := by
  norm_num [-Prod.mk_zero_zero, findClosestSegment, segEndpoint, fallbackRadius, safeDiag,
    taxiDist, abs_of_nonneg, abs_of_nonpos, List.range, List.range.loop]

lemma c5w_fcsA :
    findClosestSegment taxiDist
        [((0, 0), (1/2500, 0)), ((0, 0), (1/2500, 0)),
          ((1/2, 0), (1251/2500, 0)), ((1/2, 0), (1251/2500, 0))]
        (fallbackRadius 1) (0, 0) [0, 1] = none := by
  norm_num [-Prod.mk_zero_zero, findClosestSegment, segEndpoint, fallbackRadius, safeDiag,
    taxiDist, abs_of_nonneg, abs_of_nonpos, List.range, List.range.loop]

lemma c5w_fcsQ :
    findClosestSegment taxiDist
        [((0, 0), (1/2500, 0)), ((0, 0), (1/2500, 0)),
          ((1/2, 0), (1251/2500, 0)), ((1/2, 0), (1251/2500, 0))]
        (fallbackRadius 1) (1251/2500, 0) [0, 1, 2] = some (3, true) := by
  norm_num [-Prod.mk_zero_zero, findClosestSegment, segEndpoint, fallbackRadius, safeDiag,
    taxiDist, abs_of_nonneg, abs_of_nonpos, List.range, List.range.loop]

lemma c5w_fcsP :
    findClosestSegment taxiDist
        [((0, 0), (1/2500, 0)), ((0, 0), (1/2500, 0)),
          ((1/2, 0), (1251/2500, 0)), ((1/2, 0), (1251/2500, 0))]
        (fallbackRadius 1) (1/2, 0) [0, 1, 2, 3] = none := by
  norm_num [-Prod.mk_zero_zero, findClosestSegment, segEndpoint, fallbackRadius, safeDiag,
    taxiDist, abs_of_nonneg, abs_of_nonpos, List.range, List.range.loop]

lemma c5w_fallback :
    fallbackPaths taxiDist
        [((0, 0), (1/2500, 0)), ((0, 0), (1/2500, 0)),
          ((1/2, 0), (1251/2500, 0)), ((1/2, 0), (1251/2500, 0))] (fallbackRadius 1) =
      [[(0, 0), (1/2500, 0), (0, 0)], [(1/2, 0), (1251/2500, 0), (1/2, 0)]] := by
  norm_num [-Prod.mk_zero_zero, fallbackPaths, fbOuter, fbForward, fbBackward,
    c5w_fcsB, c5w_fcsA, c5w_fcsQ, c5w_fcsP, segEndpoint, List.range, List.range.loop]

lemma c5w_buildPaths :
    buildPaths taxiDist
        [[(0, 0, 0), (1/2500, 0, 0)], [(0, 0, 0), (1/2500, 0, 0)],
          [(1/2, 0, 0), (1251/2500, 0, 0)], [(1/2, 0, 0), (1251/2500, 0, 0)]] Axis.z 1 =
      [[(0, 0), (1/2500, 0), (0, 0)], [(1/2, 0), (1251/2500, 0), (1/2, 0)]] := by
  norm_num [-Prod.mk_zero_zero, buildPaths, c5w_segments, c5w_traced, c5w_fallback,
    finalClose, taxiDist, tolerance, safeDiag, abs_of_nonneg, abs_of_nonpos]

lemma c5w_sep :
    separated taxiDist
      [((0, 0), (1/2500, 0)), ((0, 0), (1/2500, 0)),
        ((1/2, 0), (1251/2500, 0)), ((1/2, 0), (1251/2500, 0))]
      (fun i => decide (i < 2)) (fallbackRadius 1) := by
  intro i j hi hj hg ei ej
  have hi4 : i < 4 := by simpa using hi
  have hj4 : j < 4 := by simpa using hj
  interval_cases i <;> interval_cases j <;>
    first
      | exact absurd rfl hg
      | (cases ei <;> cases ej <;>
          norm_num [-Prod.mk_zero_zero, segEndpoint, taxiDist, fallbackRadius, safeDiag,
            abs_of_nonneg, abs_of_nonpos])

/-- Witness for C5: on the concrete two-component input the theorem
applies — every point of the second returned path is an endpoint of a
single group's segment. -/
theorem C5_witness :
    ∃ b : Bool, ∀ pt ∈ [((1 : ℚ)/2, (0 : ℚ)), ((1251 : ℚ)/2500, (0 : ℚ)),
        ((1 : ℚ)/2, (0 : ℚ))],
      inGroup (segmentsOf taxiDist
          [[(0, 0, 0), (1/2500, 0, 0)], [(0, 0, 0), (1/2500, 0, 0)],
            [(1/2, 0, 0), (1251/2500, 0, 0)], [(1/2, 0, 0), (1251/2500, 0, 0)]] Axis.z 1)
        (fun i => decide (i < 2)) b pt := by
  refine C5_fallback_separation taxiDist
    [[(0, 0, 0), (1/2500, 0, 0)], [(0, 0, 0), (1/2500, 0, 0)],
      [(1/2, 0, 0), (1251/2500, 0, 0)], [(1/2, 0, 0), (1251/2500, 0, 0)]] Axis.z 1
    (fun i => decide (i < 2)) ?_ ?_ _ ?_
  · rw [c5w_segments]
    exact c5w_traced
  · rw [c5w_segments]
    exact c5w_sep
  · rw [c5w_buildPaths]
    simp

end StlSlicer
